import Mathlib

/-!
# Inflate3D: radial bloat engine, plane clamp and recompute controller

A shallow embedding of `src/script.js`.

Conventions of the embedding:

* JavaScript numbers are exact rationals. IEEE rounding, and the rounding of a
  store into the `Float32Array`, are outside the model; the constants
  `1e-6`, `1e-12` and `0.01` are the rationals they denote.
* `Math.exp`, `Math.hypot` and `Math.sqrt` are library functions whose results are
  implementation-approximated: they are the fields of a `JSMath` parameter.
* The position attribute (a flat `Float32Array` of stride 3, `pos.count` vertices)
  is a list of vertices. A buffer cell is `Option Vector3`: `none` is a vertex whose
  three coordinates are not finite (`NaN`).
* Library objects of three.js (`Vector3`, `Matrix4`, `Box3`, `Mesh`) are modelled by
  the behaviour of the library calls the script makes on them.
-/

namespace Inflate3D

/-! ## Numbers and vectors -/

/-- THREE.Vector3 with finite coordinates. -/
structure Vector3 where
  x : ℚ
  y : ℚ
  z : ℚ
deriving DecidableEq, Repr

/-- One vertex of a position buffer; `none` stands for three non-finite coordinates. -/
abbrev Cell := Option Vector3

/-- The functions of the JavaScript `Math` object used by the script. -/
structure JSMath where
  exp : ℚ → ℚ
  hypot : ℚ → ℚ → ℚ → ℚ
  sqrt : ℚ → ℚ

/-- The constant `BLOOM_DECAY_A = 0.01` (script.js line 239). -/
def BLOOM_DECAY_A : ℚ := 1 / 100

/-- The literal `1e-6` of `doDeform` (line 249). -/
def strengthEps : ℚ := 1 / 1000000

/-- The literal `1e-12` of the length guard (line 262). -/
def lenEps : ℚ := 1 / 1000000000000

/-! ## Deformation of one vertex (body of the loop, lines 255-271) -/

/-- Value written for a vertex, with the denominators of the divisions that were
performed while computing it. -/
structure Traced where
  value : Vector3
  divisors : List ℚ
deriving DecidableEq, Repr

/-- Body of the deformation loop for the base vertex `p`, center `c` and
`r = amount * baseRadius`. -/
def bloatVertex (M : JSMath) (c : Vector3) (r : ℚ) (p : Vector3) : Traced :=
  let ux := p.x - c.x
  let uy := p.y - c.y
  let uz := p.z - c.z
  let len := M.hypot ux uy uz
  if len > lenEps then
    let newLen := len + r * M.exp (-len * BLOOM_DECAY_A)
    let s := newLen / len
    { value := ⟨c.x + ux * s, c.y + uy * s, c.z + uz * s⟩, divisors := [len] }
  else
    { value := p, divisors := [] }

/-- The loop `for (i = 0; i < arr.length; i += 3)`: every vertex index of `arr` is
written from `basePositions[i]`; an index past the end of `basePositions` reads
`undefined`, fails the length guard and stores `NaN`. -/
def deformLoop (M : JSMath) (base : List Vector3) (c : Vector3) (r : ℚ)
    (arr : List Cell) : List Cell :=
  (List.range arr.length).map fun i =>
    match base[i]? with
    | some p => some (bloatVertex M c r p).value
    | none => none

/-- The call `arr.set(basePositions)`: copies the source over the start of the
target; `none` is the `RangeError` raised when the source is longer. -/
def arraySet (arr : List Cell) (src : List Vector3) : Option (List Cell) :=
  if src.length ≤ arr.length then some (src.map some ++ arr.drop src.length) else none

/-! ## World transform -/

/-- The matrix `mesh.matrixWorld`. The mesh is a child of the scene, whose transform
is the identity, and its matrix is composed from position, rotation and scale, so
the fourth row is `0 0 0 1`; the three stored rows are `n11 .. n34`, the position
being the column `n14 n24 n34`. -/
structure Matrix4 where
  n11 : ℚ
  n12 : ℚ
  n13 : ℚ
  n14 : ℚ
  n21 : ℚ
  n22 : ℚ
  n23 : ℚ
  n24 : ℚ
  n31 : ℚ
  n32 : ℚ
  n33 : ℚ
  n34 : ℚ
deriving DecidableEq, Repr

namespace Matrix4

/-- The identity transform. -/
def identity : Matrix4 := ⟨1, 0, 0, 0, 0, 1, 0, 0, 0, 0, 1, 0⟩

/-- Determinant as `Matrix4.invert` computes it (with fourth row `0 0 0 1`). -/
def det (m : Matrix4) : ℚ :=
  let t11 := m.n22 * m.n33 - m.n23 * m.n32
  let t12 := m.n13 * m.n32 - m.n12 * m.n33
  let t13 := m.n12 * m.n23 - m.n13 * m.n22
  m.n11 * t11 + m.n21 * t12 + m.n31 * t13

/-- The call `new THREE.Matrix4().copy(m).invert()`. When the determinant is `0`
three.js sets all sixteen elements to `0`; that zero matrix is `none` here. -/
def invert (m : Matrix4) : Option Matrix4 :=
  if m.det = 0 then none
  else
    let detInv := 1 / m.det
    some
      { n11 := (m.n22 * m.n33 - m.n23 * m.n32) * detInv
        n12 := (m.n13 * m.n32 - m.n12 * m.n33) * detInv
        n13 := (m.n12 * m.n23 - m.n13 * m.n22) * detInv
        n14 := (m.n14 * m.n23 * m.n32 - m.n13 * m.n24 * m.n32 - m.n14 * m.n22 * m.n33
                + m.n12 * m.n24 * m.n33 + m.n13 * m.n22 * m.n34 - m.n12 * m.n23 * m.n34) * detInv
        n21 := (m.n23 * m.n31 - m.n21 * m.n33) * detInv
        n22 := (m.n11 * m.n33 - m.n13 * m.n31) * detInv
        n23 := (m.n13 * m.n21 - m.n11 * m.n23) * detInv
        n24 := (m.n13 * m.n24 * m.n31 - m.n14 * m.n23 * m.n31 + m.n14 * m.n21 * m.n33
                - m.n11 * m.n24 * m.n33 - m.n13 * m.n21 * m.n34 + m.n11 * m.n23 * m.n34) * detInv
        n31 := (m.n21 * m.n32 - m.n22 * m.n31) * detInv
        n32 := (m.n12 * m.n31 - m.n11 * m.n32) * detInv
        n33 := (m.n11 * m.n22 - m.n12 * m.n21) * detInv
        n34 := (m.n14 * m.n22 * m.n31 - m.n12 * m.n24 * m.n31 - m.n14 * m.n21 * m.n32
                + m.n11 * m.n24 * m.n32 + m.n12 * m.n21 * m.n34 - m.n11 * m.n22 * m.n34) * detInv }

end Matrix4

/-- The call `v.applyMatrix4(m)` for a matrix with fourth row `0 0 0 1`: the
perspective factor `w = 1 / (0*x + 0*y + 0*z + 1)` is `1`. -/
def applyMatrix4 (m : Matrix4) (v : Vector3) : Vector3 :=
  { x := m.n11 * v.x + m.n12 * v.y + m.n13 * v.z + m.n14
    y := m.n21 * v.x + m.n22 * v.y + m.n23 * v.z + m.n24
    z := m.n31 * v.x + m.n32 * v.y + m.n33 * v.z + m.n34 }

/-- The call `v.applyMatrix4(invWorld)`. Applied to the zero matrix the factor
`w = 1 / 0` is infinite and every coordinate is `0 * Infinity = NaN`. -/
def applyInverse (invWorld : Option Matrix4) (v : Vector3) : Cell :=
  match invWorld with
  | some inv => some (applyMatrix4 inv v)
  | none => none

/-! ## Plane clamp -/

/-- Body of the clamp loop of `applyBloatCPU` (lines 281-289): the cell is written
only when the world `z` is below the plane. A `NaN` vertex stays `NaN`: the
comparison `v.z < basePlaneZWorld` is false. -/
def clampVertex (worldMat : Matrix4) (invWorld : Option Matrix4) (planeZ : ℚ) : Cell → Cell
  | none => none
  | some p =>
    let v := applyMatrix4 worldMat p
    if v.z < planeZ then applyInverse invWorld { v with z := planeZ } else some p

/-- The clamp step of `applyBloatCPU` (lines 275-291). -/
def clampStep (worldMat : Matrix4) (planeZ : ℚ) (arr : List Cell) : List Cell :=
  let invWorld := worldMat.invert
  arr.map (clampVertex worldMat invWorld planeZ)

/-- Body of the clamp loop of the Flat Base button (lines 481-486): the vertex is
always taken back through `invWorld` and written. -/
def snapVertex (worldMat : Matrix4) (invWorld : Option Matrix4) (planeZ : ℚ) : Cell → Cell
  | none => none
  | some p =>
    let v := applyMatrix4 worldMat p
    applyInverse invWorld (if v.z < planeZ then { v with z := planeZ } else v)

/-! ## Bounding boxes -/

/-- THREE.Box3 with finite corners. -/
structure Box3 where
  min : Vector3
  max : Vector3
deriving DecidableEq, Repr

namespace Box3

/-- The box of a single point. -/
def ofPoint (p : Vector3) : Box3 := ⟨p, p⟩

/-- The method `expandByPoint`. -/
def expandByPoint (b : Box3) (p : Vector3) : Box3 :=
  { min := ⟨Min.min b.min.x p.x, Min.min b.min.y p.y, Min.min b.min.z p.z⟩
    max := ⟨Max.max b.max.x p.x, Max.max b.max.y p.y, Max.max b.max.z p.z⟩ }

/-- Bounding box of a non-empty point sequence (`computeBoundingBox`,
`setFromPoints`). -/
def setFromPoints (p : Vector3) (ps : List Vector3) : Box3 :=
  ps.foldl expandByPoint (ofPoint p)

/-- The method `isEmpty`. -/
def isEmpty (b : Box3) : Bool :=
  decide (b.max.x < b.min.x) || decide (b.max.y < b.min.y) || decide (b.max.z < b.min.z)

/-- The method `getCenter`. -/
def getCenter (b : Box3) : Vector3 :=
  if b.isEmpty then ⟨0, 0, 0⟩
  else ⟨(b.min.x + b.max.x) * (1 / 2), (b.min.y + b.max.y) * (1 / 2), (b.min.z + b.max.z) * (1 / 2)⟩

/-- The method `union`. -/
def union (a b : Box3) : Box3 :=
  { min := ⟨Min.min a.min.x b.min.x, Min.min a.min.y b.min.y, Min.min a.min.z b.min.z⟩
    max := ⟨Max.max a.max.x b.max.x, Max.max a.max.y b.max.y, Max.max a.max.z b.max.z⟩ }

/-- The method `Box3.applyMatrix4`: the axis-aligned box of the eight transformed
corners; an empty box is returned as it is. -/
def applyMatrix4 (b : Box3) (m : Matrix4) : Box3 :=
  if b.isEmpty then b
  else
    setFromPoints (Inflate3D.applyMatrix4 m ⟨b.min.x, b.min.y, b.min.z⟩)
      [ Inflate3D.applyMatrix4 m ⟨b.min.x, b.min.y, b.max.z⟩,
        Inflate3D.applyMatrix4 m ⟨b.min.x, b.max.y, b.min.z⟩,
        Inflate3D.applyMatrix4 m ⟨b.min.x, b.max.y, b.max.z⟩,
        Inflate3D.applyMatrix4 m ⟨b.max.x, b.min.y, b.min.z⟩,
        Inflate3D.applyMatrix4 m ⟨b.max.x, b.min.y, b.max.z⟩,
        Inflate3D.applyMatrix4 m ⟨b.max.x, b.max.y, b.min.z⟩,
        Inflate3D.applyMatrix4 m ⟨b.max.x, b.max.y, b.max.z⟩ ]

end Box3

/-! ## Session state (the module-level variables of script.js) -/

/-- The object `centerMarker`: a sphere mesh of the given radius, created on the first
load and re-parented to each new mesh. -/
structure Marker where
  position : Vector3
  radius : ℚ
  visible : Bool
deriving DecidableEq, Repr

/-- The object `mesh`: its position buffer `arr`, the cached
`geometry.boundingBox`, its transform, and whether `centerMarker` is its child. -/
structure Mesh where
  arr : List Cell
  boundingBox : Box3
  matrixWorld : Matrix4
  markerAttached : Bool
deriving DecidableEq, Repr

/-- The mutable variables of the script (lines 62-77 and 240) and two properties of
`gizmoCenter`: its `dragging` flag and whether an object is attached to it. -/
structure State where
  mesh : Option Mesh
  basePositions : Option (List Vector3)
  bloatCenter : Option Vector3
  centerMarker : Option Marker
  centerDirty : Bool
  baseRadius : ℚ
  basePlaneZWorld : ℚ
  basePlaneZLocal : ℚ
  flatBaseActive : Bool
  inflateAmount : ℚ
  lastAppliedAmount : ℚ
  gizmoCenterDragging : Bool
  gizmoCenterAttached : Bool
deriving DecidableEq, Repr

/-- The variables as initialised by the script before any model is loaded. -/
def State.initial : State :=
  { mesh := none, basePositions := none, bloatCenter := none, centerMarker := none,
    centerDirty := false, baseRadius := 1, basePlaneZWorld := 0, basePlaneZLocal := 0,
    flatBaseActive := false, inflateAmount := 0, lastAppliedAmount := 0,
    gizmoCenterDragging := false, gizmoCenterAttached := false }

/-! ## applyBloatCPU (lines 242-295) -/

/-- The function `applyBloatCPU(amount)`. The result `none` is the `RangeError` of
`arr.set`, raised before anything is written. -/
def applyBloatCPU (M : JSMath) (st : State) (amount : ℚ) : Option State :=
  match st.mesh, st.basePositions, st.bloatCenter with
  | some mesh, some base, some c =>
    let r := amount * st.baseRadius
    let deformed : Option (List Cell) :=
      if |amount| ≥ strengthEps then some (deformLoop M base c r mesh.arr)
      else arraySet mesh.arr base
    match deformed with
    | none => none
    | some arr =>
      let arr := if st.flatBaseActive then clampStep mesh.matrixWorld st.basePlaneZWorld arr
                 else arr
      some { st with mesh := some { mesh with arr := arr }, lastAppliedAmount := amount }
  | _, _, _ => some st

/-- The frame callback `animate` (lines 297-308). An exception of `applyBloatCPU`
leaves the variables as they were. -/
def animate (M : JSMath) (st : State) : State :=
  if st.inflateAmount ≠ st.lastAppliedAmount ∨ st.flatBaseActive = true ∨
      (st.centerMarker.isSome = true ∧ st.gizmoCenterDragging = true) ∨
      st.centerDirty = true then
    match applyBloatCPU M st st.inflateAmount with
    | some st1 => { st1 with centerDirty := false }
    | none => st
  else st

/-! ## fitCameraToObject (lines 111-174) -/

/-- Bounding box of the geometry of `centerMarker` in the frame of the mesh: the sphere
of `SphereGeometry(radius, 16, 16)` spans `-radius .. radius` on each axis and the marker
sits at `position`. -/
def Marker.localBox (mk : Marker) : Box3 :=
  { min := ⟨mk.position.x - mk.radius, mk.position.y - mk.radius, mk.position.z - mk.radius⟩
    max := ⟨mk.position.x + mk.radius, mk.position.y + mk.radius, mk.position.z + mk.radius⟩ }

/-- The call `new THREE.Box3().setFromObject(mesh)`: the world box of the cached
`geometry.boundingBox`, united with the world box of every child, visible or not. The only
child the script ever adds to the mesh is `centerMarker`. -/
def setFromObject (mesh : Mesh) (marker : Option Marker) : Box3 :=
  let box := mesh.boundingBox.applyMatrix4 mesh.matrixWorld
  match mesh.markerAttached, marker with
  | true, some mk => box.union (mk.localBox.applyMatrix4 mesh.matrixWorld)
  | _, _ => box

/-- The call `object3D.position.sub(center)` on the mesh. -/
def Mesh.positionSub (mesh : Mesh) (center : Vector3) : Mesh :=
  { mesh with
    matrixWorld :=
      { mesh.matrixWorld with
        n14 := mesh.matrixWorld.n14 - center.x
        n24 := mesh.matrixWorld.n24 - center.y
        n34 := mesh.matrixWorld.n34 - center.z } }

/-- The function `fitCameraToObject(mesh)`, restricted to the variables of `State`: the
mesh is moved by minus the center of its world box and the ground plane is set from the
lowest Z of that box. Camera, orbit controls and grid are not part of the state. -/
def fitCameraToObject (st : State) : State :=
  match st.mesh with
  | none => st
  | some mesh =>
    let box := setFromObject mesh st.centerMarker
    let center := box.getCenter
    let minZWorld := box.min.z
    let minZAfterCenter := minZWorld - center.z
    { st with
      mesh := some (mesh.positionSub center)
      basePlaneZWorld := minZAfterCenter
      basePlaneZLocal := minZWorld }

/-! ## Load (lines 321-375 and 652-703) -/

/-- The listener of the `change` event of `gizmoCenter` (lines 642-647). The gizmo
dispatches `change` whenever one of its properties `object`, `axis` or `dragging` gets a new
value, so on attach, on detach, on press and release, and on every move of a drag. With
`bloatCenter` still `null` the call `bloatCenter.copy` raises before the flag is set. -/
def gizmoCenterChange (st : State) : State :=
  match st.centerMarker, st.bloatCenter with
  | some mk, some _ =>
    if mk.visible then { st with bloatCenter := some mk.position, centerDirty := true }
    else st
  | _, _ => st

/-- The function `clearMesh` (lines 176-213). With a mesh present it detaches
`gizmoCenter` (line 180), which dispatches `change` when an object was attached. -/
def clearMesh (st : State) : State :=
  let st :=
    match st.mesh with
    | some _ =>
      if st.gizmoCenterAttached then { gizmoCenterChange st with gizmoCenterAttached := false }
      else st
    | none => st
  { st with mesh := none, basePositions := none, bloatCenter := none, baseRadius := 1 }

/-- The vertices decoded by `stlLoader.parse`. The sequence has at least one vertex: an STL
file without any facet leaves an empty bounding box and an infinite ground plane, which the
finite numbers of this model do not represent. -/
structure ParsedGeometry where
  first : Vector3
  rest : List Vector3
deriving DecidableEq, Repr

/-- The method `Vector3.distanceToSquared`. -/
def distanceToSquared (a b : Vector3) : ℚ :=
  (a.x - b.x) * (a.x - b.x) + (a.y - b.y) * (a.y - b.y) + (a.z - b.z) * (a.z - b.z)

/-- The radius set by `computeBoundingSphere`: the square root of the largest squared
distance of a vertex from the center of the bounding box. -/
def boundingSphereRadius (M : JSMath) (center : Vector3) (vs : List Vector3) : ℚ :=
  M.sqrt (vs.foldl (fun acc v => Max.max acc (distanceToSquared center v)) 0)

/-- The load handler after a successful `stlLoader.parse` (lines 334-370; the default
model loader, lines 662-697, does the same). -/
def loadParsed (M : JSMath) (g : ParsedGeometry) (st : State) : State :=
  let st := clearMesh st
  -- geometry.computeBoundingBox(); geometry.translate(-geoCenter)
  let geoCenter := (Box3.setFromPoints g.first g.rest).getCenter
  let tr : Vector3 → Vector3 := fun v => ⟨v.x - geoCenter.x, v.y - geoCenter.y, v.z - geoCenter.z⟩
  let verts := (g.first :: g.rest).map tr
  let bbox := Box3.setFromPoints (tr g.first) (g.rest.map tr)
  -- mesh = new THREE.Mesh(geometry, material)
  let mesh : Mesh :=
    { arr := verts.map some, boundingBox := bbox, matrixWorld := Matrix4.identity,
      markerAttached := false }
  -- basePositions, bounding sphere
  let sphereCenter := bbox.getCenter
  let radius := boundingSphereRadius M sphereCenter verts
  let st :=
    { st with
      mesh := some mesh, basePositions := some verts, bloatCenter := some sphereCenter,
      baseRadius := radius }
  let st := fitCameraToObject st
  -- center marker: created once, then moved to the center and added to the mesh
  let mk : Marker :=
    match st.centerMarker with
    | some mk => mk
    | none => { position := ⟨0, 0, 0⟩, radius := Max.max (1 / 100) (radius * (3 / 100)),
                visible := true }
  { st with
    centerMarker := some { mk with position := sphereCenter, visible := false }
    mesh := st.mesh.map fun m => { m with markerAttached := true }
    inflateAmount := 0 }

/-- The load handler: when `stlLoader.parse` throws (`none`) the catch block only reports
the failure. -/
def loadHandler (M : JSMath) (parsed : Option ParsedGeometry) (st : State) : State :=
  match parsed with
  | some g => loadParsed M g st
  | none => st

/-! ## Input handlers -/

/-- The `input` handler of the slider (lines 377-381), for a parsed value. -/
def sliderInput (value : ℚ) (st : State) : State :=
  { st with inflateAmount := value }

/-- The `input` handler of the numeric field (lines 388-394); `none` is a value that
`parseFloat` does not turn into a finite number. -/
def numericInput (raw : Option ℚ) (st : State) : State :=
  match raw with
  | none => st
  | some raw => { st with inflateAmount := Max.max (-1) (Min.min 1 raw) }

/-- The reset handler (lines 401-432). A `RangeError` of `arr.set` ends the handler. -/
def resetHandler (st : State) : State :=
  let st := { st with inflateAmount := 0, flatBaseActive := false }
  match st.mesh, st.basePositions with
  | some mesh, some base =>
    match arraySet mesh.arr base with
    | none => st
    | some arr =>
      fitCameraToObject
        { st with
          mesh := some { mesh with arr := arr, matrixWorld := Matrix4.identity }
          lastAppliedAmount := 0 }
  | _, _ => st

/-- The Flat Base button (lines 462-507). -/
def flatBtnClick (M : JSMath) (st : State) : State :=
  let st := { st with flatBaseActive := !st.flatBaseActive }
  if st.flatBaseActive then
    match st.mesh with
    | some mesh =>
      let invWorld := mesh.matrixWorld.invert
      { st with
        mesh := some { mesh with
          arr := mesh.arr.map (snapVertex mesh.matrixWorld invWorld st.basePlaneZWorld) } }
    | none => st
  else
    match st.mesh, st.basePositions with
    | some mesh, some base =>
      match arraySet mesh.arr base with
      | none => st
      | some arr =>
        let st1 := { st with mesh := some { mesh with arr := arr } }
        match applyBloatCPU M st1 st1.inflateAmount with
        | some st2 => st2
        | none => st1
    | _, _ => st

/-- The Inflate Sphere Position button (lines 620-639). Showing the marker attaches
`gizmoCenter` to it (line 624), which dispatches `change` unless it was attached already;
hiding it detaches the gizmo, and the listener then sees a hidden marker. -/
def centerBtnClick (st : State) : State :=
  match st.mesh, st.centerMarker with
  | some _, some mk =>
    let st := { st with centerMarker := some { mk with visible := !mk.visible } }
    if mk.visible then { st with gizmoCenterAttached := false }
    else if st.gizmoCenterAttached then st
    else gizmoCenterChange { st with gizmoCenterAttached := true }
  | _, _ => st

/-- A move of the center gizmo to `p`: the attached marker gets the new position and the
gizmo dispatches `change`. Without an attached object the gizmo does not move anything. -/
def gizmoCenterMove (p : Vector3) (st : State) : State :=
  match st.centerMarker with
  | some mk =>
    if st.gizmoCenterAttached then
      gizmoCenterChange { st with centerMarker := some { mk with position := p } }
    else st
  | none => st

/-- Press and release of the center gizmo: the flag `gizmoCenter.dragging`. A press needs an
attached object; a new value of the flag dispatches `change`. -/
def gizmoCenterDrag (dragging : Bool) (st : State) : State :=
  if dragging then
    if st.gizmoCenterAttached && !st.gizmoCenterDragging then
      gizmoCenterChange { st with gizmoCenterDragging := true }
    else st
  else if st.gizmoCenterDragging then gizmoCenterChange { st with gizmoCenterDragging := false }
  else st

/-- An edit of the object transform with the model gizmo: the mesh gets a new matrix. -/
def gizmoModelMove (m : Matrix4) (st : State) : State :=
  { st with mesh := st.mesh.map fun mesh => { mesh with matrixWorld := m } }

/-- The events of a session. -/
inductive Event where
  | load (parsed : Option ParsedGeometry)
  | slider (value : ℚ)
  | numeric (raw : Option ℚ)
  | reset
  | flatBtn
  | centerBtn
  | centerMove (p : Vector3)
  | centerDrag (dragging : Bool)
  | modelMove (m : Matrix4)
  | tick

/-- One step of the session. -/
def step (M : JSMath) (st : State) : Event → State
  | .load parsed => loadHandler M parsed st
  | .slider value => sliderInput value st
  | .numeric raw => numericInput raw st
  | .reset => resetHandler st
  | .flatBtn => flatBtnClick M st
  | .centerBtn => centerBtnClick st
  | .centerMove p => gizmoCenterMove p st
  | .centerDrag dragging => gizmoCenterDrag dragging st
  | .modelMove m => gizmoModelMove m st
  | .tick => animate M st

/-- The state after a sequence of events from the initial state. -/
def run (M : JSMath) (events : List Event) : State :=
  events.foldl (step M) State.initial

/-! ## The formula of the specification and test data -/

/-- The deformed position as the specification words it:
`c + (p - c) * ((len + s * baseRadius * exp (-len * decayRate)) / len)` with
`len = |p - c|` and `decayRate = 0.01`. -/
def specDeform (M : JSMath) (c : Vector3) (baseRadius s : ℚ) (p : Vector3) : Vector3 :=
  let len := M.hypot (p.x - c.x) (p.y - c.y) (p.z - c.z)
  let k := (len + s * baseRadius * M.exp (-len * (1 / 100))) / len
  ⟨c.x + (p.x - c.x) * k, c.y + (p.y - c.y) * k, c.z + (p.z - c.z) * k⟩

/-- A concrete `Math` for evaluating the model on examples: `hypot` is exact on a
vector with at most one non-zero component, `sqrt` is exact at `1`, and `exp` is its
Taylor polynomial of order two. -/
def axisMath : JSMath :=
  { exp := fun x => 1 + x + x * x / 2
    hypot := fun x y z => |x| + |y| + |z|
    sqrt := fun q => (q + 1) / 2 }

/-- A Loaded state around one mesh: everything else as after a load. -/
def State.ofMesh (mesh : Mesh) (base : List Vector3) (c : Vector3) (baseRadius planeZ : ℚ)
    (flat : Bool) : State :=
  { State.initial with
    mesh := some mesh, basePositions := some base, bloatCenter := some c,
    baseRadius := baseRadius, basePlaneZWorld := planeZ, flatBaseActive := flat }

/-- A mesh holding the given buffer, untransformed. -/
def Mesh.ofArr (arr : List Cell) : Mesh :=
  { arr := arr, boundingBox := ⟨⟨0, 0, 0⟩, ⟨0, 0, 0⟩⟩, matrixWorld := Matrix4.identity,
    markerAttached := false }

/-! ## Concrete inputs and states used by the examples -/

/-- The state of the boundary case: one base vertex at the origin and the center at
distance exactly `1e-12` from it, radius `1`, clamp off. -/
def boundaryState : State :=
  State.ofMesh (Mesh.ofArr [some ⟨0, 0, 0⟩]) [⟨0, 0, 0⟩] ⟨-lenEps, 0, 0⟩ 1 0 false

/-- The scenario of the specification: one base vertex at `(1,0,0)`, center at the
origin, radius `1`, clamp off. -/
def unitState : State :=
  State.ofMesh (Mesh.ofArr [some ⟨1, 0, 0⟩]) [⟨1, 0, 0⟩] ⟨0, 0, 0⟩ 1 0 false

/-- A Loaded state whose working buffer holds the values of an earlier deformation. -/
def staleState : State :=
  State.ofMesh (Mesh.ofArr [some ⟨3, 0, 0⟩, some ⟨0, 5, 0⟩]) [⟨1, 0, 0⟩, ⟨0, 2, 0⟩] ⟨0, 0, 0⟩
    2 0 false

/-- A quarter turn about the X axis followed by a translation: world Z is local Y plus 1. -/
def tiltedMatrix : Matrix4 := ⟨1, 0, 0, 0, 0, 0, -1, 0, 0, 1, 0, 1⟩

/-- A vertex at the center itself, with full strength. -/
def centeredState : State :=
  State.ofMesh (Mesh.ofArr [some ⟨9, 9, 9⟩, some ⟨8, 8, 8⟩]) [⟨1, 0, 0⟩, ⟨2, 3, 4⟩] ⟨2, 3, 4⟩
    5 0 false

/-- The buffer computed by `applyBloatCPU` in a Loaded state, as a function of everything
but the previous buffer contents. -/
def recomputed (M : JSMath) (st : State) (mesh : Mesh) (base : List Vector3) (c : Vector3)
    (s : ℚ) : List Cell :=
  let deformed := if strengthEps ≤ |s| then
      base.map fun p => some (bloatVertex M c (s * st.baseRadius) p).value
    else base.map some
  if st.flatBaseActive then clampStep mesh.matrixWorld st.basePlaneZWorld deformed else deformed

/-- A clamped, tilted mesh whose buffer holds unrelated values. -/
def tiltedState : State :=
  State.ofMesh { Mesh.ofArr [some ⟨7, 7, 7⟩, none] with matrixWorld := tiltedMatrix }
    [⟨1, 0, 0⟩, ⟨0, -2, 0⟩] ⟨0, 0, 0⟩ 1 0 true

/-- Mesh A: the six vertices of an octahedron of radius `1`. -/
def octahedron : ParsedGeometry :=
  { first := ⟨1, 0, 0⟩, rest := [⟨-1, 0, 0⟩, ⟨0, 1, 0⟩, ⟨0, -1, 0⟩, ⟨0, 0, 1⟩, ⟨0, 0, -1⟩] }

/-- Mesh B: a flattened octahedron, half as high along Z. -/
def lozenge : ParsedGeometry :=
  { first := ⟨1, 0, 0⟩,
    rest := [⟨-1, 0, 0⟩, ⟨0, 1, 0⟩, ⟨0, -1, 0⟩, ⟨0, 0, 1 / 2⟩, ⟨0, 0, -1 / 2⟩] }

/-- Load mesh A, set the strength to `0.8` and render; then load mesh B, set the strength
to `0.8` again before the next frame, and render. -/
def staleTrace : List Event :=
  [.load (some octahedron), .slider (4 / 5), .tick,
   .load (some lozenge), .slider (4 / 5), .tick]

/-- The base positions of mesh B after the load has centered them. -/
def lozengeBase : List Vector3 :=
  [⟨1, 0, 0⟩, ⟨-1, 0, 0⟩, ⟨0, 1, 0⟩, ⟨0, -1, 0⟩, ⟨0, 0, 1 / 2⟩, ⟨0, 0, -1 / 2⟩]

/-- Load mesh A, show the center marker, drag it to `(0, 0, -5)` below the mesh, and
press Reset. -/
def markerTrace : List Event :=
  [.load (some octahedron), .centerBtn, .centerMove ⟨0, 0, -5⟩, .reset]

/-! ## The range of the slider -/

/-- Modelled from the spec: the lower end of the continuous strength control. The `min`
attribute of the range input is set in the page, not in the script; the specification
constrains the control to the closed interval from `-1` to `1`. -/
def sliderMin : ℚ := -1

/-- Modelled from the spec: the upper end of the continuous strength control (the `max`
attribute of the range input). -/
def sliderMax : ℚ := 1

/-- An event the page can deliver: a range input only reports values between its `min`
and its `max`. -/
def Event.deliverable : Event → Prop
  | .slider value => sliderMin ≤ value ∧ value ≤ sliderMax
  | _ => True

/-- The strength and the last strength passed to `applyBloatCPU` are within `[-1, 1]`. -/
def State.strengthInRange (st : State) : Prop :=
  |st.inflateAmount| ≤ 1 ∧ |st.lastAppliedAmount| ≤ 1

/-! ## The quantities of the deformation loop -/

/-- The value `len = Math.hypot(ux, uy, uz)` of line 261 for the base vertex `p`. -/
def lenOf (M : JSMath) (c p : Vector3) : ℚ := M.hypot (p.x - c.x) (p.y - c.y) (p.z - c.z)

/-- The value `newLen = len + r * Math.exp(-len * BLOOM_DECAY_A)` of line 263. -/
def newLenOf (M : JSMath) (c : Vector3) (r : ℚ) (p : Vector3) : ℚ :=
  lenOf M c p + r * M.exp (-lenOf M c p * BLOOM_DECAY_A)

/-- The scale factor `s = newLen / len` of line 264. -/
def radialFactor (M : JSMath) (c : Vector3) (r : ℚ) (p : Vector3) : ℚ :=
  newLenOf M c r p / lenOf M c p

/-- The point `c + (p - c) * k` of the line through `c` and `p`: `c` for `k = 0`, `p` for
`k = 1`, beyond `p` for `k > 1` and on the other side of `c` for `k < 0`. -/
def scaleAbout (c p : Vector3) (k : ℚ) : Vector3 :=
  ⟨c.x + (p.x - c.x) * k, c.y + (p.y - c.y) * k, c.z + (p.z - c.z) * k⟩

/-! ## Further concrete states -/

/-- A vertex off the axes, at offset `(1, 1, 0)` from the center, in a mesh of radius `2`,
clamp off. -/
def diagonalState : State :=
  State.ofMesh (Mesh.ofArr [some ⟨1, 1, 0⟩]) [⟨1, 1, 0⟩] ⟨0, 0, 0⟩ 2 0 false

/-- A vertex close to the center of a mesh of radius `1`: distance `0.1`, clamp off. -/
def overshootState : State :=
  State.ofMesh (Mesh.ofArr [some ⟨1 / 10, 0, 0⟩]) [⟨1 / 10, 0, 0⟩] ⟨0, 0, 0⟩ 1 0 false

/-- A mesh whose vertices coincide (bounding radius `0`), with the center dragged to
distance `1` from them, clamp off. -/
def pointState : State :=
  State.ofMesh (Mesh.ofArr [some ⟨0, 0, 0⟩, some ⟨0, 0, 0⟩, some ⟨0, 0, 0⟩])
    [⟨0, 0, 0⟩, ⟨0, 0, 0⟩, ⟨0, 0, 0⟩] ⟨-1, 0, 0⟩ 0 0 false

/-- The translation `geometry.translate(-d.x, -d.y, -d.z)` of one vertex. -/
def centerOn (d v : Vector3) : Vector3 := ⟨v.x - d.x, v.y - d.y, v.z - d.z⟩

/-- The center `geoCenter` of the bounding box of a parsed geometry. -/
def geoCenterOf (g : ParsedGeometry) : Vector3 := (Box3.setFromPoints g.first g.rest).getCenter

/-- The vertices of a parsed geometry after `geometry.translate` has centered them on the
center of their bounding box: the base positions of the mesh. -/
def centeredVertices (g : ParsedGeometry) : List Vector3 :=
  (g.first :: g.rest).map (centerOn (geoCenterOf g))

/-- The bounding box of the centered vertices. -/
def centeredBox (g : ParsedGeometry) : Box3 :=
  Box3.setFromPoints (centerOn (geoCenterOf g) g.first) (g.rest.map (centerOn (geoCenterOf g)))

/-- The mesh transform left by `fitCameraToObject` at the end of a load. -/
def loadedMatrix (g : ParsedGeometry) : Matrix4 :=
  { Matrix4.identity with
    n14 := Matrix4.identity.n14 - ((centeredBox g).applyMatrix4 Matrix4.identity).getCenter.x
    n24 := Matrix4.identity.n24 - ((centeredBox g).applyMatrix4 Matrix4.identity).getCenter.y
    n34 := Matrix4.identity.n34 - ((centeredBox g).applyMatrix4 Matrix4.identity).getCenter.z }

/-- A session with a load, both strength inputs at and beyond the ends of the range, a
value that is not a number, a clamp toggle, a reset and frames in between. -/
def strengthTrace : List Event :=
  [.load (some octahedron), .slider 1, .tick, .numeric (some 7), .tick, .numeric none,
   .flatBtn, .slider (-1), .flatBtn, .numeric (some (-3)), .reset, .tick]

/-! ## Lemmas on the loops -/

theorem deformLoop_length (M : JSMath) (base : List Vector3) (c : Vector3) (r : ℚ)
    (arr : List Cell) : (deformLoop M base c r arr).length = arr.length := by
  simp [deformLoop]

theorem deformLoop_getElem? (M : JSMath) (base : List Vector3) (c : Vector3) (r : ℚ)
    (arr : List Cell) (i : ℕ) (p : Vector3) (hi : i < arr.length) (hp : base[i]? = some p) :
    (deformLoop M base c r arr)[i]? = some (some (bloatVertex M c r p).value) := by
  simp [deformLoop, List.getElem?_map, List.getElem?_range hi, hp]

theorem deformLoop_eq_map (M : JSMath) (base : List Vector3) (c : Vector3) (r : ℚ)
    (arr : List Cell) (hlen : arr.length = base.length) :
    deformLoop M base c r arr = base.map fun p => some (bloatVertex M c r p).value := by
  apply List.ext_getElem?
  intro i
  by_cases hi : i < base.length
  · have hp : base[i]? = some base[i] := List.getElem?_eq_getElem hi
    rw [deformLoop_getElem? M base c r arr i base[i] (hlen ▸ hi) hp]
    simp [List.getElem?_map, hp]
  · have h1 : (deformLoop M base c r arr).length ≤ i := by
      rw [deformLoop_length, hlen]; omega
    rw [List.getElem?_eq_none h1, List.getElem?_eq_none (by simpa using hi)]

theorem arraySet_of_length_eq (arr : List Cell) (base : List Vector3)
    (hlen : arr.length = base.length) : arraySet arr base = some (base.map some) := by
  simp [arraySet, hlen, List.drop_of_length_le (le_of_eq hlen)]

/-- With the clamp off, a Loaded state and a strength that deforms, `applyBloatCPU`
returns and the buffer is the deformation of the base. -/
theorem applyBloatCPU_deform (M : JSMath) (st : State) (mesh : Mesh) (base : List Vector3)
    (c : Vector3) (s : ℚ) (hmesh : st.mesh = some mesh) (hbase : st.basePositions = some base)
    (hc : st.bloatCenter = some c) (hs : strengthEps ≤ |s|) :
    applyBloatCPU M st s =
      some { st with
        mesh := some { mesh with
          arr := if st.flatBaseActive then
              clampStep mesh.matrixWorld st.basePlaneZWorld
                (deformLoop M base c (s * st.baseRadius) mesh.arr)
            else deformLoop M base c (s * st.baseRadius) mesh.arr }
        lastAppliedAmount := s } := by
  simp [applyBloatCPU, hmesh, hbase, hc, hs]

/-- With a Loaded state and a strength below the threshold, `applyBloatCPU` returns
and the buffer is the copy of the base (clamped when the clamp is on). -/
theorem applyBloatCPU_identity (M : JSMath) (st : State) (mesh : Mesh) (base : List Vector3)
    (c : Vector3) (s : ℚ) (hmesh : st.mesh = some mesh) (hbase : st.basePositions = some base)
    (hc : st.bloatCenter = some c) (hlen : mesh.arr.length = base.length)
    (hs : |s| < strengthEps) :
    applyBloatCPU M st s =
      some { st with
        mesh := some { mesh with
          arr := if st.flatBaseActive then
              clampStep mesh.matrixWorld st.basePlaneZWorld (base.map some)
            else base.map some }
        lastAppliedAmount := s } := by
  simp [applyBloatCPU, hmesh, hbase, hc, not_le.mpr hs, arraySet_of_length_eq _ _ hlen]

theorem applyMatrix4_invert (m inv : Matrix4) (w : Vector3) (h : m.invert = some inv) :
    applyMatrix4 m (applyMatrix4 inv w) = w := by
  obtain ⟨wx, wy, wz⟩ := w
  unfold Matrix4.invert at h
  by_cases hd : m.det = 0
  · simp [hd] at h
  · simp only [hd, if_false, Option.some.injEq] at h
    subst h
    have hd2 : m.n11 * (m.n22 * m.n33 - m.n23 * m.n32) + m.n21 * (m.n13 * m.n32 - m.n12 * m.n33)
        + m.n31 * (m.n12 * m.n23 - m.n13 * m.n22) ≠ 0 := hd
    simp only [applyMatrix4, Matrix4.det, Vector3.mk.injEq]
    refine ⟨?_, ?_, ?_⟩ <;> field_simp <;> ring

theorem clampStep_getElem? (m : Matrix4) (planeZ : ℚ) (arr : List Cell) (i : ℕ) (cell : Cell)
    (h : arr[i]? = some cell) :
    (clampStep m planeZ arr)[i]? = some (clampVertex m m.invert planeZ cell) := by
  simp [clampStep, List.getElem?_map, h]

/-! ## C1: deformation formula -/

/-- C1 as stated fails on the boundary: with strength `1` and a base vertex whose distance
from the center is exactly `1e-12` (so not smaller than `1e-12`), `applyBloatCPU` writes the
vertex unmoved, which is not the value of the formula. -/
theorem C1_boundary_counterexample :
    strengthEps ≤ |(1 : ℚ)| ∧
    ¬ (axisMath.hypot ((0 : ℚ) - (-lenEps)) (0 - 0) (0 - 0) < lenEps) ∧
    (∃ st1 mesh1, applyBloatCPU axisMath boundaryState 1 = some st1 ∧ st1.mesh = some mesh1 ∧
      mesh1.arr[0]? = some (some ⟨0, 0, 0⟩)) ∧
    specDeform axisMath ⟨-lenEps, 0, 0⟩ 1 1 ⟨0, 0, 0⟩ ≠ ⟨0, 0, 0⟩ := by
  refine ⟨by norm_num [strengthEps], by norm_num [axisMath, lenEps, abs_eq_max_neg], ?_, ?_⟩
  · refine ⟨_, _, applyBloatCPU_deform axisMath boundaryState _ _ _ 1 rfl rfl rfl
      (by norm_num [strengthEps]), rfl, ?_⟩
    norm_num [boundaryState, State.ofMesh, State.initial, Mesh.ofArr, deformLoop, bloatVertex,
      axisMath, lenEps, abs_eq_max_neg]
  · norm_num [specDeform, axisMath, lenEps, abs_eq_max_neg]

/-- C1 (amended): for a Loaded state with the clamp off, a strength with `|s| >= 1e-6` and a
base vertex `p` at index `i` whose distance `len` from the center is greater than `1e-12`,
`applyBloatCPU` returns and the vertex written at index `i` is exactly
`c + (p - c) * ((len + s * baseRadius * exp (-len * 0.01)) / len)`. -/
theorem C1_deformation_formula (M : JSMath) (st : State) (mesh : Mesh) (base : List Vector3)
    (c : Vector3) (s : ℚ) (i : ℕ) (p : Vector3)
    (hmesh : st.mesh = some mesh) (hbase : st.basePositions = some base)
    (hc : st.bloatCenter = some c) (hlen : mesh.arr.length = base.length)
    (hflat : st.flatBaseActive = false) (hs : strengthEps ≤ |s|) (hp : base[i]? = some p)
    (hgt : lenEps < M.hypot (p.x - c.x) (p.y - c.y) (p.z - c.z)) :
    ∃ st1 mesh1, applyBloatCPU M st s = some st1 ∧ st1.mesh = some mesh1 ∧
      mesh1.arr[i]? = some (some (specDeform M c st.baseRadius s p)) := by
  refine ⟨_, _, applyBloatCPU_deform M st mesh base c s hmesh hbase hc hs, rfl, ?_⟩
  have hi : i < mesh.arr.length := by
    rw [hlen]
    exact (List.getElem?_eq_some_iff.mp hp).1
  simp only [hflat, Bool.false_eq_true, if_false]
  rw [deformLoop_getElem? M base c _ mesh.arr i p hi hp]
  simp [bloatVertex, specDeform, hgt, BLOOM_DECAY_A]

/-- The scenario of the specification: strength `0.5` moves `(1,0,0)` to the value of the
formula. -/
theorem C1_deformation_formula_witness :
    ∃ st1 mesh1, applyBloatCPU axisMath unitState (1 / 2) = some st1 ∧ st1.mesh = some mesh1 ∧
      mesh1.arr[0]? = some (some (specDeform axisMath ⟨0, 0, 0⟩ unitState.baseRadius (1 / 2)
        ⟨1, 0, 0⟩)) :=
  C1_deformation_formula axisMath unitState (Mesh.ofArr [some ⟨1, 0, 0⟩]) [⟨1, 0, 0⟩] ⟨0, 0, 0⟩
    (1 / 2) 0 ⟨1, 0, 0⟩ rfl rfl rfl rfl rfl (by norm_num [strengthEps, abs_eq_max_neg]) rfl
    (by norm_num [axisMath, lenEps, abs_eq_max_neg])

/-! ## C2: identity law -/

/-- C2: for a Loaded state with the clamp off and a strength with `|s| < 1e-6`,
`applyBloatCPU` returns and the working buffer equals the base positions element for
element. -/
theorem C2_identity_law (M : JSMath) (st : State) (mesh : Mesh) (base : List Vector3)
    (c : Vector3) (s : ℚ)
    (hmesh : st.mesh = some mesh) (hbase : st.basePositions = some base)
    (hc : st.bloatCenter = some c) (hlen : mesh.arr.length = base.length)
    (hflat : st.flatBaseActive = false) (hs : |s| < strengthEps) :
    ∃ st1 mesh1, applyBloatCPU M st s = some st1 ∧ st1.mesh = some mesh1 ∧
      mesh1.arr = base.map some := by
  refine ⟨_, _, applyBloatCPU_identity M st mesh base c s hmesh hbase hc hlen hs, rfl, ?_⟩
  simp [hflat]

/-- C2 at a concrete input: a buffer holding stale values is restored to the base by a
strength of one ten-millionth. -/
theorem C2_identity_law_witness :
    ∃ st1 mesh1, applyBloatCPU axisMath staleState (1 / 10000000) = some st1 ∧
      st1.mesh = some mesh1 ∧ mesh1.arr = [(⟨1, 0, 0⟩ : Vector3), ⟨0, 2, 0⟩].map some :=
  C2_identity_law axisMath staleState (Mesh.ofArr [some ⟨3, 0, 0⟩, some ⟨0, 5, 0⟩])
    [⟨1, 0, 0⟩, ⟨0, 2, 0⟩] ⟨0, 0, 0⟩ (1 / 10000000) rfl rfl rfl rfl rfl
    (by norm_num [strengthEps, abs_eq_max_neg])

/-! ## C3: plane clamp with an invertible transform -/

/-- C3: for a world transform with non-zero determinant, the clamp step leaves a vertex
whose world Z is at least `planeZ` exactly as it was, and maps any other vertex to a local
point whose world position has Z exactly `planeZ` and the world X and Y it had before. -/
theorem C3_clamp_postcondition (m : Matrix4) (planeZ : ℚ) (arr : List Cell) (i : ℕ)
    (p : Vector3) (hdet : m.det ≠ 0) (hp : arr[i]? = some (some p)) :
    (planeZ ≤ (applyMatrix4 m p).z → (clampStep m planeZ arr)[i]? = some (some p)) ∧
    ((applyMatrix4 m p).z < planeZ →
      ∃ q, (clampStep m planeZ arr)[i]? = some (some q) ∧
        applyMatrix4 m q = ⟨(applyMatrix4 m p).x, (applyMatrix4 m p).y, planeZ⟩) := by
  rw [clampStep_getElem? m planeZ arr i (some p) hp]
  constructor
  · intro hz
    simp [clampVertex, not_lt.mpr hz]
  · intro hz
    cases hinv : m.invert with
    | none => simp [Matrix4.invert, hdet] at hinv
    | some inv =>
      refine ⟨applyMatrix4 inv ⟨(applyMatrix4 m p).x, (applyMatrix4 m p).y, planeZ⟩, ?_, ?_⟩
      · simp [clampVertex, hz, applyInverse]
      · exact applyMatrix4_invert m inv _ hinv

/-- C3 at a concrete input: a vertex under a tilted, translated mesh. -/
theorem C3_clamp_postcondition_witness :
    (0 ≤ (applyMatrix4 tiltedMatrix ⟨2, -3, 5⟩).z →
      (clampStep tiltedMatrix 0 [some ⟨0, 0, 0⟩, some ⟨2, -3, 5⟩])[1]? = some (some ⟨2, -3, 5⟩)) ∧
    ((applyMatrix4 tiltedMatrix ⟨2, -3, 5⟩).z < 0 →
      ∃ q, (clampStep tiltedMatrix 0 [some ⟨0, 0, 0⟩, some ⟨2, -3, 5⟩])[1]? = some (some q) ∧
        applyMatrix4 tiltedMatrix q =
          ⟨(applyMatrix4 tiltedMatrix ⟨2, -3, 5⟩).x, (applyMatrix4 tiltedMatrix ⟨2, -3, 5⟩).y, 0⟩) :=
  C3_clamp_postcondition tiltedMatrix 0 [some ⟨0, 0, 0⟩, some ⟨2, -3, 5⟩] 1 ⟨2, -3, 5⟩
    (by norm_num [Matrix4.det, tiltedMatrix]) rfl

/-! ## The clamp loop and a determinant of zero -/

/-- The clamp loop of `applyBloatCPU` tests neither the determinant nor the result of
`invert`: given a matrix of determinant `0` it leaves a vertex whose world Z is at least
`planeZ` as it was and writes non-finite coordinates for a vertex below `planeZ`. The script
itself only ever composes the matrix of the mesh from a position, a rotation and the scale
`(1, 1, 1)`. -/
theorem clampStep_singular (m : Matrix4) (planeZ : ℚ) (arr : List Cell) (i : ℕ) (p : Vector3)
    (hdet : m.det = 0) (hp : arr[i]? = some (some p)) :
    (planeZ ≤ (applyMatrix4 m p).z → (clampStep m planeZ arr)[i]? = some (some p)) ∧
    ((applyMatrix4 m p).z < planeZ → (clampStep m planeZ arr)[i]? = some none) := by
  rw [clampStep_getElem? m planeZ arr i (some p) hp]
  constructor
  · intro hz
    simp [clampVertex, not_lt.mpr hz]
  · intro hz
    simp [clampVertex, hz, applyInverse, Matrix4.invert, hdet]

/-! ## C5: degenerate-center guard -/

/-- C5: for a Loaded state with the clamp off, every strength `s` and every base vertex `p`
at index `i` whose distance from the center is below `1e-12`, `applyBloatCPU` returns, the
vertex written at index `i` is `p` itself, and the loop body for `p` performs no division. -/
theorem C5_degenerate_center_guard (M : JSMath) (st : State) (mesh : Mesh)
    (base : List Vector3) (c : Vector3) (s : ℚ) (i : ℕ) (p : Vector3)
    (hmesh : st.mesh = some mesh) (hbase : st.basePositions = some base)
    (hc : st.bloatCenter = some c) (hlen : mesh.arr.length = base.length)
    (hflat : st.flatBaseActive = false) (hp : base[i]? = some p)
    (hlt : M.hypot (p.x - c.x) (p.y - c.y) (p.z - c.z) < lenEps) :
    (∃ st1 mesh1, applyBloatCPU M st s = some st1 ∧ st1.mesh = some mesh1 ∧
      mesh1.arr[i]? = some (some p)) ∧
    (bloatVertex M c (s * st.baseRadius) p).divisors = [] := by
  have hguard : ¬ (M.hypot (p.x - c.x) (p.y - c.y) (p.z - c.z) > lenEps) := not_lt.mpr hlt.le
  have hi : i < mesh.arr.length := by
    rw [hlen]
    exact (List.getElem?_eq_some_iff.mp hp).1
  constructor
  · by_cases hs : strengthEps ≤ |s|
    · refine ⟨_, _, applyBloatCPU_deform M st mesh base c s hmesh hbase hc hs, rfl, ?_⟩
      simp only [hflat, Bool.false_eq_true, if_false]
      rw [deformLoop_getElem? M base c _ mesh.arr i p hi hp]
      simp [bloatVertex, hguard]
    · refine ⟨_, _, applyBloatCPU_identity M st mesh base c s hmesh hbase hc hlen
        (not_le.mp hs), rfl, ?_⟩
      simp [hflat, List.getElem?_map, hp]
  · simp [bloatVertex, hguard]

/-- C5 at a concrete input: the second base vertex coincides with the center. -/
theorem C5_degenerate_center_guard_witness :
    (∃ st1 mesh1, applyBloatCPU axisMath centeredState 1 = some st1 ∧ st1.mesh = some mesh1 ∧
      mesh1.arr[1]? = some (some ⟨2, 3, 4⟩)) ∧
    (bloatVertex axisMath ⟨2, 3, 4⟩ (1 * centeredState.baseRadius) ⟨2, 3, 4⟩).divisors = [] :=
  C5_degenerate_center_guard axisMath centeredState
    (Mesh.ofArr [some ⟨9, 9, 9⟩, some ⟨8, 8, 8⟩]) [⟨1, 0, 0⟩, ⟨2, 3, 4⟩] ⟨2, 3, 4⟩ 1 1 ⟨2, 3, 4⟩
    rfl rfl rfl rfl rfl rfl (by norm_num [axisMath, lenEps])

/-! ## C6: controller invariant -/

/-- C6 fails on the code: after `staleTrace` the session is Loaded with mesh B, the clamp
is off and the strength is `0.8`, but the last tick did not recompute: the working buffer
still holds the base positions of B and not their deformation with the current strength
and center. -/
theorem C6_stale_after_load :
    (run axisMath staleTrace).basePositions = some lozengeBase ∧
    (run axisMath staleTrace).bloatCenter = some ⟨0, 0, 0⟩ ∧
    (run axisMath staleTrace).flatBaseActive = false ∧
    (run axisMath staleTrace).inflateAmount = 4 / 5 ∧
    (run axisMath staleTrace).mesh.map (fun m => m.arr) = some (lozengeBase.map some) ∧
    (run axisMath staleTrace).mesh.map (fun m => m.arr) ≠
      some (deformLoop axisMath lozengeBase ⟨0, 0, 0⟩
        ((run axisMath staleTrace).inflateAmount * (run axisMath staleTrace).baseRadius)
        (lozengeBase.map some)) := by
  refine ⟨by decide!, by decide!, by decide!, by decide!, by decide!, by decide!⟩

/-! ## C7: no hidden accumulation -/

theorem applyBloatCPU_loaded (M : JSMath) (st : State) (mesh : Mesh) (base : List Vector3)
    (c : Vector3) (s : ℚ) (hmesh : st.mesh = some mesh) (hbase : st.basePositions = some base)
    (hc : st.bloatCenter = some c) (hlen : mesh.arr.length = base.length) :
    applyBloatCPU M st s =
      some { st with
        mesh := some { mesh with arr := recomputed M st mesh base c s }
        lastAppliedAmount := s } := by
  by_cases hs : strengthEps ≤ |s|
  · rw [applyBloatCPU_deform M st mesh base c s hmesh hbase hc hs]
    simp [recomputed, hs, deformLoop_eq_map M base c _ mesh.arr hlen]
  · rw [applyBloatCPU_identity M st mesh base c s hmesh hbase hc hlen (not_le.mp hs)]
    simp [recomputed, hs]

theorem recomputed_length (M : JSMath) (st : State) (mesh : Mesh) (base : List Vector3)
    (c : Vector3) (s : ℚ) : (recomputed M st mesh base c s).length = base.length := by
  unfold recomputed
  split_ifs <;> simp [clampStep]

/-- C7: for a Loaded state, replacing the previous contents of the working buffer by any
other buffer of the same length does not change the buffer `applyBloatCPU` produces, and
calling `applyBloatCPU` a second time with the same strength returns the state of the first
call. -/
theorem C7_no_hidden_accumulation (M : JSMath) (st : State) (mesh : Mesh)
    (base : List Vector3) (c : Vector3) (s : ℚ) (other : List Cell)
    (hmesh : st.mesh = some mesh) (hbase : st.basePositions = some base)
    (hc : st.bloatCenter = some c) (hlen : mesh.arr.length = base.length)
    (hother : other.length = mesh.arr.length) :
    ∃ st1 mesh1 st2 mesh2,
      applyBloatCPU M st s = some st1 ∧ st1.mesh = some mesh1 ∧
      applyBloatCPU M { st with mesh := some { mesh with arr := other } } s = some st2 ∧
      st2.mesh = some mesh2 ∧
      mesh1.arr = mesh2.arr ∧
      applyBloatCPU M st1 s = some st1 := by
  refine ⟨_, _, _, _, applyBloatCPU_loaded M st mesh base c s hmesh hbase hc hlen, rfl,
    applyBloatCPU_loaded M { st with mesh := some { mesh with arr := other } }
      { mesh with arr := other } base c s rfl hbase hc (hother.trans hlen), rfl, ?_, ?_⟩
  · simp [recomputed]
  · rw [applyBloatCPU_loaded M
      { st with
        mesh := some { mesh with arr := recomputed M st mesh base c s }
        lastAppliedAmount := s }
      { mesh with arr := recomputed M st mesh base c s } base c s
      rfl hbase hc (recomputed_length M st mesh base c s)]
    simp [recomputed]

/-- C7 at a concrete input: a clamped, tilted mesh and two unrelated previous buffers. -/
theorem C7_no_hidden_accumulation_witness :
    ∃ st1 mesh1 st2 mesh2,
      applyBloatCPU axisMath tiltedState (1 / 2) = some st1 ∧ st1.mesh = some mesh1 ∧
      applyBloatCPU axisMath
        { tiltedState with
          mesh := some { ({ Mesh.ofArr [some ⟨7, 7, 7⟩, none] with
            matrixWorld := tiltedMatrix } : Mesh) with arr := [none, some ⟨1, 2, 3⟩] } }
        (1 / 2) = some st2 ∧
      st2.mesh = some mesh2 ∧
      mesh1.arr = mesh2.arr ∧
      applyBloatCPU axisMath st1 (1 / 2) = some st1 :=
  C7_no_hidden_accumulation axisMath tiltedState
    { Mesh.ofArr [some ⟨7, 7, 7⟩, none] with matrixWorld := tiltedMatrix }
    [⟨1, 0, 0⟩, ⟨0, -2, 0⟩] ⟨0, 0, 0⟩ (1 / 2) [none, some ⟨1, 2, 3⟩] rfl rfl rfl rfl rfl

/-! ## C8: round trip -/

/-- C8: for a Loaded state with the clamp off and every strength `s`, `applyBloatCPU s`
followed by `applyBloatCPU 0` both return, the working buffer then equals the base
positions, and `basePositions` is the same after each call. -/
theorem C8_round_trip (M : JSMath) (st : State) (mesh : Mesh) (base : List Vector3)
    (c : Vector3) (s : ℚ)
    (hmesh : st.mesh = some mesh) (hbase : st.basePositions = some base)
    (hc : st.bloatCenter = some c) (hlen : mesh.arr.length = base.length)
    (hflat : st.flatBaseActive = false) :
    ∃ st1 st2 mesh2,
      applyBloatCPU M st s = some st1 ∧ applyBloatCPU M st1 0 = some st2 ∧
      st2.mesh = some mesh2 ∧ mesh2.arr = base.map some ∧
      st1.basePositions = some base ∧ st2.basePositions = some base := by
  refine ⟨_, _, _, applyBloatCPU_loaded M st mesh base c s hmesh hbase hc hlen,
    applyBloatCPU_loaded M
      { st with
        mesh := some { mesh with arr := recomputed M st mesh base c s }
        lastAppliedAmount := s }
      { mesh with arr := recomputed M st mesh base c s } base c 0
      rfl hbase hc (recomputed_length M st mesh base c s), rfl, ?_, hbase, hbase⟩
  simp [recomputed, hflat, strengthEps]

/-- C8 at a concrete input: strength `0.8`, then `0`, on the unit scenario. -/
theorem C8_round_trip_witness :
    ∃ st1 st2 mesh2,
      applyBloatCPU axisMath unitState (4 / 5) = some st1 ∧
      applyBloatCPU axisMath st1 0 = some st2 ∧
      st2.mesh = some mesh2 ∧ mesh2.arr = [(⟨1, 0, 0⟩ : Vector3)].map some ∧
      st1.basePositions = some [⟨1, 0, 0⟩] ∧ st2.basePositions = some [⟨1, 0, 0⟩] :=
  C8_round_trip axisMath unitState (Mesh.ofArr [some ⟨1, 0, 0⟩]) [⟨1, 0, 0⟩] ⟨0, 0, 0⟩ (4 / 5)
    rfl rfl rfl rfl rfl

/-! ## C9 and C10: reset -/

/-- C9 fails on the code: after `markerTrace` the strength is `0`, the clamp is off and
the working buffer equals the base positions, but the mesh is left translated by
`403/200` along Z: `fitCameraToObject` centers the box of the mesh together with its
marker child. -/
theorem C9_reset_leaves_translation :
    (run axisMath markerTrace).inflateAmount = 0 ∧
    (run axisMath markerTrace).flatBaseActive = false ∧
    (run axisMath markerTrace).mesh.map (fun m => m.arr) =
      (run axisMath markerTrace).basePositions.map (fun b => b.map some) ∧
    (run axisMath markerTrace).mesh.map (fun m => m.matrixWorld) =
      some ⟨1, 0, 0, 0, 0, 1, 0, 0, 0, 0, 1, 403 / 200⟩ ∧
    (run axisMath markerTrace).mesh.map (fun m => m.matrixWorld) ≠ some Matrix4.identity := by
  refine ⟨by decide!, by decide!, by decide!, by decide!, by decide!⟩

/-- C10 fails on the code: the load of mesh A sets the ground plane to `-1`, and the
reset at the end of `markerTrace` moves it to `-603/200`. -/
theorem C10_reset_moves_ground_plane :
    (run axisMath [.load (some octahedron)]).basePlaneZWorld = -1 ∧
    (run axisMath [.load (some octahedron), .centerBtn,
      .centerMove ⟨0, 0, -5⟩]).basePlaneZWorld = -1 ∧
    (run axisMath markerTrace).basePlaneZWorld = -603 / 200 := by
  refine ⟨by decide!, by decide!, by decide!⟩

/-! ## What the handlers do in general -/

/-- In a Loaded state the reset handler sets the strength to `0`, switches the clamp off,
copies the base positions into the working buffer, and leaves as transform the translation
by minus the center of the world box of the mesh and its children. -/
theorem resetHandler_loaded (st : State) (mesh : Mesh) (base : List Vector3)
    (hmesh : st.mesh = some mesh) (hbase : st.basePositions = some base)
    (hlen : mesh.arr.length = base.length) :
    (resetHandler st).inflateAmount = 0 ∧
    (resetHandler st).flatBaseActive = false ∧
    (resetHandler st).lastAppliedAmount = 0 ∧
    (resetHandler st).mesh =
      some (Mesh.positionSub { mesh with arr := base.map some, matrixWorld := Matrix4.identity }
        (setFromObject { mesh with arr := base.map some, matrixWorld := Matrix4.identity }
          st.centerMarker).getCenter) := by
  simp [resetHandler, hmesh, hbase, arraySet_of_length_eq _ _ hlen, fitCameraToObject]

/-- The `change` listener of the center gizmo writes only the center and the dirty flag. -/
theorem gizmoCenterChange_kept (st : State) :
    (gizmoCenterChange st).basePlaneZWorld = st.basePlaneZWorld ∧
    (gizmoCenterChange st).inflateAmount = st.inflateAmount ∧
    (gizmoCenterChange st).lastAppliedAmount = st.lastAppliedAmount := by
  unfold gizmoCenterChange
  split
  · split_ifs <;> exact ⟨rfl, rfl, rfl⟩
  · exact ⟨rfl, rfl, rfl⟩

theorem clearMesh_kept (st : State) :
    (clearMesh st).basePlaneZWorld = st.basePlaneZWorld ∧
    (clearMesh st).inflateAmount = st.inflateAmount ∧
    (clearMesh st).lastAppliedAmount = st.lastAppliedAmount := by
  simp only [clearMesh]
  split
  · split_ifs
    · exact gizmoCenterChange_kept st
    · exact ⟨rfl, rfl, rfl⟩
  · exact ⟨rfl, rfl, rfl⟩

theorem centerBtnClick_kept (st : State) :
    (centerBtnClick st).basePlaneZWorld = st.basePlaneZWorld ∧
    (centerBtnClick st).inflateAmount = st.inflateAmount ∧
    (centerBtnClick st).lastAppliedAmount = st.lastAppliedAmount := by
  simp only [centerBtnClick]
  split
  · split_ifs
    · exact ⟨rfl, rfl, rfl⟩
    · exact ⟨rfl, rfl, rfl⟩
    · have h := gizmoCenterChange_kept
        { st with
          centerMarker := some { ‹Marker› with visible := !(‹Marker›).visible }
          gizmoCenterAttached := true }
      exact h
  · exact ⟨rfl, rfl, rfl⟩

theorem gizmoCenterMove_kept (p : Vector3) (st : State) :
    (gizmoCenterMove p st).basePlaneZWorld = st.basePlaneZWorld ∧
    (gizmoCenterMove p st).inflateAmount = st.inflateAmount ∧
    (gizmoCenterMove p st).lastAppliedAmount = st.lastAppliedAmount := by
  simp only [gizmoCenterMove]
  split
  · split_ifs
    · have h := gizmoCenterChange_kept
        { st with centerMarker := some { ‹Marker› with position := p } }
      exact h
    · exact ⟨rfl, rfl, rfl⟩
  · exact ⟨rfl, rfl, rfl⟩

theorem gizmoCenterDrag_kept (dragging : Bool) (st : State) :
    (gizmoCenterDrag dragging st).basePlaneZWorld = st.basePlaneZWorld ∧
    (gizmoCenterDrag dragging st).inflateAmount = st.inflateAmount ∧
    (gizmoCenterDrag dragging st).lastAppliedAmount = st.lastAppliedAmount := by
  simp only [gizmoCenterDrag]
  split_ifs
  · have h := gizmoCenterChange_kept { st with gizmoCenterDragging := true }
    exact h
  · exact ⟨rfl, rfl, rfl⟩
  · have h := gizmoCenterChange_kept { st with gizmoCenterDragging := false }
    exact h
  · exact ⟨rfl, rfl, rfl⟩

/-- Every event other than a successful load and a reset leaves the ground plane where
it was. -/
theorem step_basePlaneZWorld (M : JSMath) (st : State) (e : Event)
    (hload : ∀ g, e ≠ .load (some g)) (hreset : e ≠ .reset) :
    (step M st e).basePlaneZWorld = st.basePlaneZWorld := by
  cases e with
  | load parsed =>
    cases parsed with
    | none => rfl
    | some g => exact absurd rfl (hload g)
  | reset => exact absurd rfl hreset
  | slider value => rfl
  | numeric raw => cases raw <;> rfl
  | flatBtn =>
    simp only [step, flatBtnClick]
    split_ifs
    · split <;> rfl
    · split
      · split
        · rfl
        · split
          · rename_i h
            simp only [applyBloatCPU] at h
            split at h
            · split at h
              · exact absurd h (by simp)
              · simp only [Option.some.injEq] at h
                rw [← h]
            · simp only [Option.some.injEq] at h
              rw [← h]
          · rfl
      · rfl
  | centerBtn => exact (centerBtnClick_kept st).1
  | centerMove p => exact (gizmoCenterMove_kept p st).1
  | centerDrag dragging => exact (gizmoCenterDrag_kept dragging st).1
  | modelMove m => rfl
  | tick =>
    simp only [step, animate]
    split_ifs
    · split
      · rename_i h
        simp only [applyBloatCPU] at h
        split at h
        · split at h
          · exact absurd h (by simp)
          · simp only [Option.some.injEq] at h
            rw [← h]
        · simp only [Option.some.injEq] at h
          rw [← h]
      · rfl
    · rfl

/-- In a Loaded state, a tick whose test asks for a recompute leaves in the working buffer
the deformation (clamped when the clamp is on) of the base for the current strength, center
and transform. -/
theorem animate_recomputes (M : JSMath) (st : State) (mesh : Mesh) (base : List Vector3)
    (c : Vector3) (hmesh : st.mesh = some mesh) (hbase : st.basePositions = some base)
    (hc : st.bloatCenter = some c) (hlen : mesh.arr.length = base.length)
    (hcond : st.inflateAmount ≠ st.lastAppliedAmount ∨ st.flatBaseActive = true ∨
      (st.centerMarker.isSome = true ∧ st.gizmoCenterDragging = true) ∨ st.centerDirty = true) :
    animate M st =
      { st with
        mesh := some { mesh with arr := recomputed M st mesh base c st.inflateAmount }
        lastAppliedAmount := st.inflateAmount
        centerDirty := false } := by
  unfold animate
  rw [if_pos hcond, applyBloatCPU_loaded M st mesh base c st.inflateAmount hmesh hbase hc hlen]

/-! ## C14: numeric entry -/

/-- C14: for a finite typed value `raw` the numeric-entry handler changes nothing but the
strength, which becomes `max (-1) (min 1 raw)`: `1` for `raw > 1`, `-1` for `raw < -1`, and
`raw` itself within `[-1, 1]`; for a value that is not a finite number it leaves the state
as it was. -/
theorem C14_numeric_entry_clamps (st : State) (raw : ℚ) :
    numericInput (some raw) st = { st with inflateAmount := Max.max (-1) (Min.min 1 raw) } ∧
    (1 < raw → (numericInput (some raw) st).inflateAmount = 1) ∧
    (raw < -1 → (numericInput (some raw) st).inflateAmount = -1) ∧
    (-1 ≤ raw → raw ≤ 1 → (numericInput (some raw) st).inflateAmount = raw) ∧
    numericInput none st = st := by
  refine ⟨rfl, ?_, ?_, ?_, rfl⟩
  · intro h
    simp only [numericInput]
    rw [min_eq_left h.le, max_eq_right (by norm_num)]
  · intro h
    simp only [numericInput]
    rw [min_eq_right (by linarith), max_eq_left h.le]
  · intro h1 h2
    simp only [numericInput]
    rw [min_eq_right h2, max_eq_right h1]

/-- C14 at concrete inputs: `7/2` typed into the numeric field of the unit scenario. -/
theorem C14_numeric_entry_clamps_witness :
    (numericInput (some (7 / 2)) unitState).inflateAmount = 1 :=
  (C14_numeric_entry_clamps unitState (7 / 2)).2.1 (by norm_num)

/-! ## C15: a failed load -/

/-- C15: when `stlLoader.parse` throws, the load handler returns the session state it was
given, whatever that state is: every variable keeps its value. A session that was Loaded
after some events is left as those events made it, and a session that had nothing loaded
stays in its initial state. -/
theorem C15_load_failure_atomic (M : JSMath) (st : State) (events : List Event) :
    loadHandler M none st = st ∧
    run M (events ++ [.load none]) = run M events ∧
    run M [.load none] = State.initial := by
  refine ⟨rfl, ?_, rfl⟩
  simp [run, List.foldl_append, step, loadHandler]

/-! ## The vertex written by applyBloatCPU -/

/-- In a Loaded state with the clamp off, `applyBloatCPU` returns and writes at index `i`
the deformation of the base vertex at `i` when the strength deforms, and the base vertex
itself otherwise. -/
theorem applyBloatCPU_vertex (M : JSMath) (st : State) (mesh : Mesh) (base : List Vector3)
    (c : Vector3) (s : ℚ) (i : ℕ) (p : Vector3)
    (hmesh : st.mesh = some mesh) (hbase : st.basePositions = some base)
    (hc : st.bloatCenter = some c) (hlen : mesh.arr.length = base.length)
    (hflat : st.flatBaseActive = false) (hp : base[i]? = some p) :
    ∃ st1 mesh1, applyBloatCPU M st s = some st1 ∧ st1.mesh = some mesh1 ∧
      mesh1.arr[i]? = some (some
        (if strengthEps ≤ |s| then (bloatVertex M c (s * st.baseRadius) p).value else p)) := by
  refine ⟨_, _, applyBloatCPU_loaded M st mesh base c s hmesh hbase hc hlen, rfl, ?_⟩
  by_cases hs : strengthEps ≤ |s|
  · simp [recomputed, hflat, hs, List.getElem?_map, hp]
  · simp [recomputed, hflat, hs, List.getElem?_map, hp]

/-- In the deforming branch the loop body writes the point of the radius line with factor
`newLen / len`. -/
theorem bloatVertex_scaleAbout (M : JSMath) (c : Vector3) (r : ℚ) (p : Vector3)
    (hgt : lenEps < lenOf M c p) :
    (bloatVertex M c r p).value = scaleAbout c p (radialFactor M c r p) := by
  have h : lenEps < M.hypot (p.x - c.x) (p.y - c.y) (p.z - c.z) := hgt
  simp [bloatVertex, h, scaleAbout, radialFactor, newLenOf, lenOf]

theorem distanceToSquared_center_scaleAbout (c p : Vector3) (k : ℚ) :
    distanceToSquared c (scaleAbout c p k) = k * k * distanceToSquared c p := by
  simp only [distanceToSquared, scaleAbout]
  ring

theorem distanceToSquared_scaleAbout (c p : Vector3) (k : ℚ) :
    distanceToSquared p (scaleAbout c p k) = (1 - k) * (1 - k) * distanceToSquared c p := by
  simp only [distanceToSquared, scaleAbout]
  ring

theorem distanceToSquared_nonneg (a b : Vector3) : 0 ≤ distanceToSquared a b := by
  simp only [distanceToSquared]
  nlinarith [mul_self_nonneg (a.x - b.x), mul_self_nonneg (a.y - b.y),
    mul_self_nonneg (a.z - b.z)]

/-- A vertex whose `len` exceeds the guard is not the center, as `Math.hypot(0, 0, 0)`
is `0`. -/
theorem distanceToSquared_pos_of_len (M : JSMath) (c p : Vector3)
    (hzero : M.hypot 0 0 0 = 0) (hgt : lenEps < lenOf M c p) : 0 < distanceToSquared c p := by
  have hne : ¬ (p.x - c.x = 0 ∧ p.y - c.y = 0 ∧ p.z - c.z = 0) := by
    rintro ⟨hx, hy, hz⟩
    simp only [lenOf, hx, hy, hz, hzero] at hgt
    exact absurd hgt (by norm_num [lenEps])
  simp only [distanceToSquared]
  by_contra hle
  apply hne
  have h0 : (c.x - p.x) * (c.x - p.x) + (c.y - p.y) * (c.y - p.y)
      + (c.z - p.z) * (c.z - p.z) ≤ 0 := not_lt.mp hle
  have hx : (c.x - p.x) * (c.x - p.x) = 0 := by
    nlinarith [mul_self_nonneg (c.x - p.x), mul_self_nonneg (c.y - p.y),
      mul_self_nonneg (c.z - p.z)]
  have hy : (c.y - p.y) * (c.y - p.y) = 0 := by
    nlinarith [mul_self_nonneg (c.x - p.x), mul_self_nonneg (c.y - p.y),
      mul_self_nonneg (c.z - p.z)]
  have hz : (c.z - p.z) * (c.z - p.z) = 0 := by
    nlinarith [mul_self_nonneg (c.x - p.x), mul_self_nonneg (c.y - p.y),
      mul_self_nonneg (c.z - p.z)]
  refine ⟨?_, ?_, ?_⟩
  · linarith [mul_self_eq_zero.mp hx]
  · linarith [mul_self_eq_zero.mp hy]
  · linarith [mul_self_eq_zero.mp hz]

/-! ## C16: bounded displacement -/

/-- C16: in a Loaded state with the clamp off, for every strength `s`, a base radius that
is not negative and a base vertex `p` at index `i` whose `len` is above `1e-12`, where
`Math.hypot` does not return less than the distance of `p` from the center (the exact
length does not) and `Math.exp` returns a value between `0` and `1` at `-len * 0.01`: the
values `len` and `newLen` of the loop satisfy `|newLen - len| <= |s| * baseRadius`; and the
vertex `applyBloatCPU` writes, which for `|s| >= 1e-6` is the point of the radius line with
factor `newLen / len`, lies at distance at most `|s| * baseRadius` from `p` (compared as
squares), hence at most `baseRadius` when `|s| <= 1`. -/
theorem C16_bounded_displacement (M : JSMath) (st : State) (mesh : Mesh) (base : List Vector3)
    (c : Vector3) (s : ℚ) (i : ℕ) (p : Vector3)
    (hmesh : st.mesh = some mesh) (hbase : st.basePositions = some base)
    (hc : st.bloatCenter = some c) (hlen : mesh.arr.length = base.length)
    (hflat : st.flatBaseActive = false) (hR : 0 ≤ st.baseRadius) (hp : base[i]? = some p)
    (hgt : lenEps < lenOf M c p)
    (hhyp : distanceToSquared c p ≤ lenOf M c p * lenOf M c p)
    (hE0 : 0 ≤ M.exp (-lenOf M c p * BLOOM_DECAY_A))
    (hE1 : M.exp (-lenOf M c p * BLOOM_DECAY_A) ≤ 1) :
    |newLenOf M c (s * st.baseRadius) p - lenOf M c p| ≤ |s| * st.baseRadius ∧
    ∃ st1 mesh1 q, applyBloatCPU M st s = some st1 ∧ st1.mesh = some mesh1 ∧
      mesh1.arr[i]? = some (some q) ∧
      (strengthEps ≤ |s| → q = scaleAbout c p (radialFactor M c (s * st.baseRadius) p)) ∧
      distanceToSquared p q ≤ (|s| * st.baseRadius) * (|s| * st.baseRadius) ∧
      (|s| ≤ 1 → distanceToSquared p q ≤ st.baseRadius * st.baseRadius) := by
  have hpos : 0 < lenOf M c p := lt_trans (by norm_num [lenEps]) hgt
  have hsR : 0 ≤ |s| * st.baseRadius := mul_nonneg (abs_nonneg s) hR
  have hdiff : newLenOf M c (s * st.baseRadius) p - lenOf M c p
      = s * st.baseRadius * M.exp (-lenOf M c p * BLOOM_DECAY_A) := by
    simp only [newLenOf]
    ring
  have hd : |newLenOf M c (s * st.baseRadius) p - lenOf M c p| ≤ |s| * st.baseRadius := by
    rw [hdiff, abs_mul, abs_mul, abs_of_nonneg hR, abs_of_nonneg hE0]
    calc |s| * st.baseRadius * M.exp (-lenOf M c p * BLOOM_DECAY_A)
        ≤ |s| * st.baseRadius * 1 := mul_le_mul_of_nonneg_left hE1 hsR
      _ = |s| * st.baseRadius := mul_one _
  have hunit : |s| ≤ 1 →
      (|s| * st.baseRadius) * (|s| * st.baseRadius) ≤ st.baseRadius * st.baseRadius := by
    intro h1
    have h2 : |s| * st.baseRadius ≤ st.baseRadius := by
      calc |s| * st.baseRadius ≤ 1 * st.baseRadius := mul_le_mul_of_nonneg_right h1 hR
        _ = st.baseRadius := one_mul _
    exact mul_le_mul h2 h2 hsR hR
  refine ⟨hd, ?_⟩
  obtain ⟨st1, mesh1, h1, h2, h3⟩ :=
    applyBloatCPU_vertex M st mesh base c s i p hmesh hbase hc hlen hflat hp
  by_cases hs : strengthEps ≤ |s|
  · rw [if_pos hs, bloatVertex_scaleAbout M c (s * st.baseRadius) p hgt] at h3
    have hk : (1 - radialFactor M c (s * st.baseRadius) p) * lenOf M c p
        = -(newLenOf M c (s * st.baseRadius) p - lenOf M c p) := by
      simp only [radialFactor]
      field_simp
    have hq : distanceToSquared p (scaleAbout c p (radialFactor M c (s * st.baseRadius) p))
        ≤ (|s| * st.baseRadius) * (|s| * st.baseRadius) := by
      rw [distanceToSquared_scaleAbout]
      calc (1 - radialFactor M c (s * st.baseRadius) p)
              * (1 - radialFactor M c (s * st.baseRadius) p) * distanceToSquared c p
          ≤ (1 - radialFactor M c (s * st.baseRadius) p)
              * (1 - radialFactor M c (s * st.baseRadius) p)
              * (lenOf M c p * lenOf M c p) :=
            mul_le_mul_of_nonneg_left hhyp (mul_self_nonneg _)
        _ = (newLenOf M c (s * st.baseRadius) p - lenOf M c p)
              * (newLenOf M c (s * st.baseRadius) p - lenOf M c p) := by
            rw [← neg_mul_neg (newLenOf M c (s * st.baseRadius) p - lenOf M c p), ← hk]
            ring
        _ = |newLenOf M c (s * st.baseRadius) p - lenOf M c p|
              * |newLenOf M c (s * st.baseRadius) p - lenOf M c p| :=
            (abs_mul_abs_self _).symm
        _ ≤ (|s| * st.baseRadius) * (|s| * st.baseRadius) :=
            mul_le_mul hd hd (abs_nonneg _) hsR
    exact ⟨st1, mesh1, _, h1, h2, h3, fun _ => rfl, hq, fun h => le_trans hq (hunit h)⟩
  · rw [if_neg hs] at h3
    have hq : distanceToSquared p p = 0 := by simp [distanceToSquared]
    refine ⟨st1, mesh1, p, h1, h2, h3, fun h => absurd h hs, ?_, ?_⟩
    · rw [hq]
      exact mul_nonneg hsR hsR
    · intro _
      rw [hq]
      exact mul_nonneg hR hR

/-- C16 at a concrete input: a vertex at offset `(1, 1, 0)` from the center, whose distance
from it is not rational, in a mesh of radius `2` with strength `0.5`. -/
theorem C16_bounded_displacement_witness :
    |newLenOf axisMath ⟨0, 0, 0⟩ (1 / 2 * diagonalState.baseRadius) ⟨1, 1, 0⟩
        - lenOf axisMath ⟨0, 0, 0⟩ ⟨1, 1, 0⟩| ≤ |(1 / 2 : ℚ)| * diagonalState.baseRadius ∧
    ∃ st1 mesh1 q, applyBloatCPU axisMath diagonalState (1 / 2) = some st1 ∧
      st1.mesh = some mesh1 ∧ mesh1.arr[0]? = some (some q) ∧
      (strengthEps ≤ |(1 / 2 : ℚ)| → q = scaleAbout ⟨0, 0, 0⟩ ⟨1, 1, 0⟩
        (radialFactor axisMath ⟨0, 0, 0⟩ (1 / 2 * diagonalState.baseRadius) ⟨1, 1, 0⟩)) ∧
      distanceToSquared ⟨1, 1, 0⟩ q
        ≤ (|(1 / 2 : ℚ)| * diagonalState.baseRadius)
          * (|(1 / 2 : ℚ)| * diagonalState.baseRadius) ∧
      (|(1 / 2 : ℚ)| ≤ 1 →
        distanceToSquared ⟨1, 1, 0⟩ q
          ≤ diagonalState.baseRadius * diagonalState.baseRadius) :=
  C16_bounded_displacement axisMath diagonalState (Mesh.ofArr [some ⟨1, 1, 0⟩]) [⟨1, 1, 0⟩]
    ⟨0, 0, 0⟩ (1 / 2) 0 ⟨1, 1, 0⟩ rfl rfl rfl rfl rfl
    (by norm_num [diagonalState, State.ofMesh]) rfl
    (by norm_num [lenOf, axisMath, lenEps, abs_eq_max_neg])
    (by norm_num [lenOf, axisMath, distanceToSquared, abs_eq_max_neg])
    (by norm_num [lenOf, axisMath, BLOOM_DECAY_A, abs_eq_max_neg])
    (by norm_num [lenOf, axisMath, BLOOM_DECAY_A, abs_eq_max_neg])

/-! ## C11: motion along the radius -/

/-- C11 as stated fails in two ways. With strength `-1`, radius `1` and a base vertex at
distance `0.1` from the center, the vertex is carried through the center to the other side
and ends farther from it than it was. With a base radius of `0` and strength `1` the vertex
does not move, so its distance does not grow. -/
theorem C11_overshoot_counterexample :
    (-1 ≤ (-1 : ℚ) ∧ (-1 : ℚ) ≤ 1 ∧ strengthEps ≤ |(-1 : ℚ)|) ∧
    lenEps < axisMath.hypot (1 / 10 - 0) (0 - 0) (0 - 0) ∧
    (applyBloatCPU axisMath overshootState (-1)).bind (fun st => st.mesh.map fun m => m.arr) =
      some [some ⟨-8990005 / 10000000, 0, 0⟩] ∧
    distanceToSquared ⟨0, 0, 0⟩ ⟨1 / 10, 0, 0⟩
      < distanceToSquared ⟨0, 0, 0⟩ ⟨-8990005 / 10000000, 0, 0⟩ ∧
    lenEps < axisMath.hypot (0 - -1) (0 - 0) (0 - 0) ∧
    (applyBloatCPU axisMath pointState 1).bind (fun st => st.mesh.map fun m => m.arr) =
      some [some ⟨0, 0, 0⟩, some ⟨0, 0, 0⟩, some ⟨0, 0, 0⟩] := by
  refine ⟨⟨by norm_num, by norm_num, by norm_num [strengthEps]⟩, by decide!, by decide!,
    by decide!, by decide!, by decide!⟩

/-- C11 (amended): in a Loaded state with the clamp off, for a strength with
`|s| >= 1e-6`, a positive base radius and a base vertex `p` at index `i` whose `len` is above
`1e-12`, with `Math.hypot(0, 0, 0) = 0` and `Math.exp` positive at `-len * 0.01`:
`applyBloatCPU` writes the point `c + (p - c) * k` of the line through the center and `p`
with `k = newLen / len`. For `s > 0`, `k > 1` and the point is farther from the center than
`p`. For `s < 0`, `k < 1`; if `newLen > -len` then `k > -1` and the point is nearer to the
center than `p`; if `newLen <= -len` then `k <= -1`: the point lies on the opposite side of
the center and is at least as far from it as `p`. Distances are compared as squares. -/
theorem C11_radial_motion (M : JSMath) (st : State) (mesh : Mesh) (base : List Vector3)
    (c : Vector3) (s : ℚ) (i : ℕ) (p : Vector3)
    (hmesh : st.mesh = some mesh) (hbase : st.basePositions = some base)
    (hc : st.bloatCenter = some c) (hlen : mesh.arr.length = base.length)
    (hflat : st.flatBaseActive = false) (hs : strengthEps ≤ |s|) (hR : 0 < st.baseRadius)
    (hp : base[i]? = some p) (hgt : lenEps < lenOf M c p) (hzero : M.hypot 0 0 0 = 0)
    (hEpos : 0 < M.exp (-lenOf M c p * BLOOM_DECAY_A)) :
    (∃ st1 mesh1, applyBloatCPU M st s = some st1 ∧ st1.mesh = some mesh1 ∧
      mesh1.arr[i]? =
        some (some (scaleAbout c p (radialFactor M c (s * st.baseRadius) p)))) ∧
    (0 < s →
      1 < radialFactor M c (s * st.baseRadius) p ∧
      distanceToSquared c p
        < distanceToSquared c (scaleAbout c p (radialFactor M c (s * st.baseRadius) p))) ∧
    (s < 0 → radialFactor M c (s * st.baseRadius) p < 1) ∧
    (s < 0 → -lenOf M c p < newLenOf M c (s * st.baseRadius) p →
      -1 < radialFactor M c (s * st.baseRadius) p ∧
      distanceToSquared c (scaleAbout c p (radialFactor M c (s * st.baseRadius) p))
        < distanceToSquared c p) ∧
    (s < 0 → newLenOf M c (s * st.baseRadius) p ≤ -lenOf M c p →
      radialFactor M c (s * st.baseRadius) p ≤ -1 ∧
      distanceToSquared c p
        ≤ distanceToSquared c (scaleAbout c p (radialFactor M c (s * st.baseRadius) p))) := by
  have hpos : 0 < lenOf M c p := lt_trans (by norm_num [lenEps]) hgt
  have hRE : 0 < st.baseRadius * M.exp (-lenOf M c p * BLOOM_DECAY_A) := mul_pos hR hEpos
  have hD : 0 < distanceToSquared c p := distanceToSquared_pos_of_len M c p hzero hgt
  have hnew : newLenOf M c (s * st.baseRadius) p
      = lenOf M c p + s * (st.baseRadius * M.exp (-lenOf M c p * BLOOM_DECAY_A)) := by
    simp only [newLenOf]
    ring
  have hk : radialFactor M c (s * st.baseRadius) p * lenOf M c p
      = newLenOf M c (s * st.baseRadius) p := by
    simp only [radialFactor]
    field_simp
  refine ⟨?_, ?_, ?_, ?_, ?_⟩
  · obtain ⟨st1, mesh1, h1, h2, h3⟩ :=
      applyBloatCPU_vertex M st mesh base c s i p hmesh hbase hc hlen hflat hp
    rw [if_pos hs, bloatVertex_scaleAbout M c (s * st.baseRadius) p hgt] at h3
    exact ⟨st1, mesh1, h1, h2, h3⟩
  · intro hs0
    have hgrow : lenOf M c p < newLenOf M c (s * st.baseRadius) p := by
      rw [hnew]
      linarith [mul_pos hs0 hRE]
    have hk1 : 1 < radialFactor M c (s * st.baseRadius) p := by
      by_contra hle
      have := mul_le_mul_of_nonneg_right (not_lt.mp hle) hpos.le
      linarith
    refine ⟨hk1, ?_⟩
    rw [distanceToSquared_center_scaleAbout]
    nlinarith [mul_pos hD (sub_pos.mpr hk1)]
  · intro hs0
    have hshrink : newLenOf M c (s * st.baseRadius) p < lenOf M c p := by
      rw [hnew]
      linarith [mul_neg_of_neg_of_pos hs0 hRE]
    by_contra hle
    have := mul_le_mul_of_nonneg_right (not_lt.mp hle) hpos.le
    linarith
  · intro hs0 hin
    have hshrink : newLenOf M c (s * st.baseRadius) p < lenOf M c p := by
      rw [hnew]
      linarith [mul_neg_of_neg_of_pos hs0 hRE]
    have hk1 : radialFactor M c (s * st.baseRadius) p < 1 := by
      by_contra hle
      have := mul_le_mul_of_nonneg_right (not_lt.mp hle) hpos.le
      linarith
    have hk2 : -1 < radialFactor M c (s * st.baseRadius) p := by
      by_contra hle
      have := mul_le_mul_of_nonneg_right (not_lt.mp hle) hpos.le
      linarith
    refine ⟨hk2, ?_⟩
    rw [distanceToSquared_center_scaleAbout]
    nlinarith [mul_pos hD (sub_pos.mpr hk1), mul_pos hD (neg_lt_iff_pos_add'.mp hk2)]
  · intro hs0 hout
    have hk2 : radialFactor M c (s * st.baseRadius) p ≤ -1 := by
      by_contra hlt
      have := mul_lt_mul_of_pos_right (not_le.mp hlt) hpos
      linarith
    refine ⟨hk2, ?_⟩
    rw [distanceToSquared_center_scaleAbout]
    nlinarith [mul_nonneg hD.le (neg_nonneg.mpr (by linarith : radialFactor M c (s * st.baseRadius) p + 1 ≤ 0))]

/-- C11 (amended) at concrete inputs: the scenario of the specification with strength `0.5`
(outward), the same vertex with strength `-0.5` (inward), and a vertex at distance `0.1`
with strength `-1` (through the center). -/
theorem C11_radial_motion_witness :
    distanceToSquared ⟨0, 0, 0⟩ ⟨1, 0, 0⟩
      < distanceToSquared ⟨0, 0, 0⟩ (scaleAbout ⟨0, 0, 0⟩ ⟨1, 0, 0⟩
          (radialFactor axisMath ⟨0, 0, 0⟩ (1 / 2 * unitState.baseRadius) ⟨1, 0, 0⟩)) ∧
    distanceToSquared ⟨0, 0, 0⟩ (scaleAbout ⟨0, 0, 0⟩ ⟨1, 0, 0⟩
          (radialFactor axisMath ⟨0, 0, 0⟩ (-1 / 2 * unitState.baseRadius) ⟨1, 0, 0⟩))
      < distanceToSquared ⟨0, 0, 0⟩ ⟨1, 0, 0⟩ ∧
    (radialFactor axisMath ⟨0, 0, 0⟩ (-1 * overshootState.baseRadius) ⟨1 / 10, 0, 0⟩ ≤ -1 ∧
      distanceToSquared ⟨0, 0, 0⟩ ⟨1 / 10, 0, 0⟩
        ≤ distanceToSquared ⟨0, 0, 0⟩ (scaleAbout ⟨0, 0, 0⟩ ⟨1 / 10, 0, 0⟩
            (radialFactor axisMath ⟨0, 0, 0⟩ (-1 * overshootState.baseRadius)
              ⟨1 / 10, 0, 0⟩))) :=
  ⟨((C11_radial_motion axisMath unitState (Mesh.ofArr [some ⟨1, 0, 0⟩]) [⟨1, 0, 0⟩]
      ⟨0, 0, 0⟩ (1 / 2) 0 ⟨1, 0, 0⟩ rfl rfl rfl rfl rfl
      (by norm_num [strengthEps, abs_eq_max_neg]) (by norm_num [unitState, State.ofMesh]) rfl
      (by norm_num [lenOf, axisMath, lenEps, abs_eq_max_neg]) (by norm_num [axisMath])
      (by norm_num [lenOf, axisMath, BLOOM_DECAY_A, abs_eq_max_neg])).2.1 (by norm_num)).2,
    ((C11_radial_motion axisMath unitState (Mesh.ofArr [some ⟨1, 0, 0⟩]) [⟨1, 0, 0⟩]
      ⟨0, 0, 0⟩ (-1 / 2) 0 ⟨1, 0, 0⟩ rfl rfl rfl rfl rfl
      (by norm_num [strengthEps, abs_eq_max_neg]) (by norm_num [unitState, State.ofMesh]) rfl
      (by norm_num [lenOf, axisMath, lenEps, abs_eq_max_neg]) (by norm_num [axisMath])
      (by norm_num [lenOf, axisMath, BLOOM_DECAY_A, abs_eq_max_neg])).2.2.2.1 (by norm_num)
      (by norm_num [newLenOf, lenOf, axisMath, BLOOM_DECAY_A, unitState, State.ofMesh,
        abs_eq_max_neg])).2,
    (C11_radial_motion axisMath overshootState (Mesh.ofArr [some ⟨1 / 10, 0, 0⟩])
      [⟨1 / 10, 0, 0⟩] ⟨0, 0, 0⟩ (-1) 0 ⟨1 / 10, 0, 0⟩ rfl rfl rfl rfl rfl
      (by norm_num [strengthEps, abs_eq_max_neg])
      (by norm_num [overshootState, State.ofMesh]) rfl
      (by norm_num [lenOf, axisMath, lenEps, abs_eq_max_neg]) (by norm_num [axisMath])
      (by norm_num [lenOf, axisMath, BLOOM_DECAY_A, abs_eq_max_neg])).2.2.2.2 (by norm_num)
      (by norm_num [newLenOf, lenOf, axisMath, BLOOM_DECAY_A, overshootState, State.ofMesh,
        abs_eq_max_neg])⟩

/-! ## C12: the strength stays in range -/

theorem applyBloatCPU_strength (M : JSMath) (st st1 : State) (amount : ℚ)
    (h : applyBloatCPU M st amount = some st1) :
    st1.inflateAmount = st.inflateAmount ∧
    (st1.lastAppliedAmount = amount ∨ st1.lastAppliedAmount = st.lastAppliedAmount) := by
  simp only [applyBloatCPU] at h
  split at h
  · split at h
    · exact absurd h (by simp)
    · simp only [Option.some.injEq] at h
      rw [← h]
      exact ⟨rfl, Or.inl rfl⟩
  · simp only [Option.some.injEq] at h
    rw [← h]
    exact ⟨rfl, Or.inr rfl⟩

theorem fitCameraToObject_strength (st : State) :
    (fitCameraToObject st).inflateAmount = st.inflateAmount ∧
    (fitCameraToObject st).lastAppliedAmount = st.lastAppliedAmount := by
  unfold fitCameraToObject
  split <;> exact ⟨rfl, rfl⟩

theorem loadParsed_strength (M : JSMath) (g : ParsedGeometry) (st : State) :
    (loadParsed M g st).inflateAmount = 0 ∧
    (loadParsed M g st).lastAppliedAmount = st.lastAppliedAmount := by
  refine ⟨rfl, ?_⟩
  simp only [loadParsed]
  exact (fitCameraToObject_strength _).2.trans (clearMesh_kept st).2.2

theorem resetHandler_strength (st : State) :
    (resetHandler st).inflateAmount = 0 ∧
    ((resetHandler st).lastAppliedAmount = 0 ∨
      (resetHandler st).lastAppliedAmount = st.lastAppliedAmount) := by
  simp only [resetHandler]
  split
  · split
    · exact ⟨rfl, Or.inr rfl⟩
    · exact ⟨(fitCameraToObject_strength _).1, Or.inl (fitCameraToObject_strength _).2⟩
  · exact ⟨rfl, Or.inr rfl⟩

theorem flatBtnClick_strength (M : JSMath) (st : State) :
    (flatBtnClick M st).inflateAmount = st.inflateAmount ∧
    ((flatBtnClick M st).lastAppliedAmount = st.inflateAmount ∨
      (flatBtnClick M st).lastAppliedAmount = st.lastAppliedAmount) := by
  simp only [flatBtnClick]
  split_ifs
  · split <;> exact ⟨rfl, Or.inr rfl⟩
  · split
    · split
      · exact ⟨rfl, Or.inr rfl⟩
      · split
        · rename_i h
          have h5 := applyBloatCPU_strength M _ _ _ h
          exact h5
        · exact ⟨rfl, Or.inr rfl⟩
    · exact ⟨rfl, Or.inr rfl⟩

theorem animate_strength (M : JSMath) (st : State) :
    (animate M st).inflateAmount = st.inflateAmount ∧
    ((animate M st).lastAppliedAmount = st.inflateAmount ∨
      (animate M st).lastAppliedAmount = st.lastAppliedAmount) := by
  simp only [animate]
  split_ifs
  · split
    · rename_i h
      have h5 := applyBloatCPU_strength M _ _ _ h
      exact h5
    · exact ⟨rfl, Or.inr rfl⟩
  · exact ⟨rfl, Or.inr rfl⟩

/-- Every deliverable event keeps the strength and the last applied strength in range. -/
theorem step_strengthInRange (M : JSMath) (st : State) (e : Event)
    (hst : st.strengthInRange) (he : e.deliverable) : (step M st e).strengthInRange := by
  obtain ⟨h1, h2⟩ := hst
  have h0 : |(0 : ℚ)| ≤ 1 := by norm_num
  cases e with
  | load parsed =>
    cases parsed with
    | none => exact ⟨h1, h2⟩
    | some g =>
      have h := loadParsed_strength M g st
      simp only [step, loadHandler, State.strengthInRange]
      rw [h.1, h.2]
      exact ⟨h0, h2⟩
  | slider value =>
    simp only [Event.deliverable, sliderMin, sliderMax] at he
    exact ⟨abs_le.mpr he, h2⟩
  | numeric raw =>
    cases raw with
    | none => exact ⟨h1, h2⟩
    | some raw =>
      refine ⟨?_, h2⟩
      simp only [step, numericInput]
      exact abs_le.mpr ⟨le_max_left _ _, max_le (by norm_num) (min_le_left _ _)⟩
  | reset =>
    have h := resetHandler_strength st
    simp only [step, State.strengthInRange]
    rw [h.1]
    refine ⟨h0, ?_⟩
    rcases h.2 with h3 | h3 <;> rw [h3]
    · exact h0
    · exact h2
  | flatBtn =>
    have h := flatBtnClick_strength M st
    simp only [step, State.strengthInRange]
    rw [h.1]
    refine ⟨h1, ?_⟩
    rcases h.2 with h3 | h3 <;> rw [h3]
    · exact h1
    · exact h2
  | centerBtn =>
    have h := centerBtnClick_kept st
    simp only [step, State.strengthInRange]
    rw [h.2.1, h.2.2]
    exact ⟨h1, h2⟩
  | centerMove p =>
    have h := gizmoCenterMove_kept p st
    simp only [step, State.strengthInRange]
    rw [h.2.1, h.2.2]
    exact ⟨h1, h2⟩
  | centerDrag dragging =>
    have h := gizmoCenterDrag_kept dragging st
    simp only [step, State.strengthInRange]
    rw [h.2.1, h.2.2]
    exact ⟨h1, h2⟩
  | modelMove m => exact ⟨h1, h2⟩
  | tick =>
    have h := animate_strength M st
    simp only [step, State.strengthInRange]
    rw [h.1]
    refine ⟨h1, ?_⟩
    rcases h.2 with h3 | h3 <;> rw [h3]
    · exact h1
    · exact h2

theorem foldl_strengthInRange (M : JSMath) (events : List Event) (st : State)
    (hst : st.strengthInRange) (hev : ∀ e ∈ events, e.deliverable) :
    (events.foldl (step M) st).strengthInRange := by
  induction events generalizing st with
  | nil => exact hst
  | cons e es ih =>
    simp only [List.foldl_cons]
    exact ih _ (step_strengthInRange M st e hst (hev e (List.mem_cons_self e es)))
      (fun e1 h1 => hev e1 (List.mem_cons_of_mem e h1))

/-- C12: the strength is `0` initially, and after every sequence of events the page can
deliver (slider values within the range of the control, any typed value, loads, resets and
everything else) the strength satisfies `|inflateAmount| <= 1`; so does the last strength
that was passed to `applyBloatCPU`. The strength is a finite number in every state. -/
theorem C12_strength_in_range (M : JSMath) (events : List Event)
    (hev : ∀ e ∈ events, e.deliverable) :
    State.initial.inflateAmount = 0 ∧
    |(run M events).inflateAmount| ≤ 1 ∧ |(run M events).lastAppliedAmount| ≤ 1 := by
  have h := foldl_strengthInRange M events State.initial
    ⟨by norm_num [State.initial], by norm_num [State.initial]⟩ hev
  exact ⟨rfl, h.1, h.2⟩

/-- C12 at a concrete input: a session with values typed beyond both ends of the range. -/
theorem C12_strength_in_range_witness :
    State.initial.inflateAmount = 0 ∧
    |(run axisMath strengthTrace).inflateAmount| ≤ 1 ∧
    |(run axisMath strengthTrace).lastAppliedAmount| ≤ 1 :=
  C12_strength_in_range axisMath strengthTrace (by
    intro e he
    simp only [strengthTrace, List.mem_cons, List.mem_singleton, List.not_mem_nil,
      or_false] at he
    rcases he with h | h | h | h | h | h | h | h | h | h | h | h <;> subst h <;>
      simp [Event.deliverable, sliderMin, sliderMax])

/-! ## Bounding boxes of point sequences -/

theorem foldl_expandByPoint_ordered (ps : List Vector3) (b : Box3)
    (h : b.min.x ≤ b.max.x ∧ b.min.y ≤ b.max.y ∧ b.min.z ≤ b.max.z) :
    (ps.foldl Box3.expandByPoint b).min.x ≤ (ps.foldl Box3.expandByPoint b).max.x ∧
    (ps.foldl Box3.expandByPoint b).min.y ≤ (ps.foldl Box3.expandByPoint b).max.y ∧
    (ps.foldl Box3.expandByPoint b).min.z ≤ (ps.foldl Box3.expandByPoint b).max.z := by
  induction ps generalizing b with
  | nil => exact h
  | cons q qs ih =>
    simp only [List.foldl_cons]
    apply ih
    simp only [Box3.expandByPoint]
    exact ⟨(min_le_left _ _).trans (h.1.trans (le_max_left _ _)),
      (min_le_left _ _).trans (h.2.1.trans (le_max_left _ _)),
      (min_le_left _ _).trans (h.2.2.trans (le_max_left _ _))⟩

theorem foldl_expandByPoint_min_z (ps : List Vector3) (b : Box3) :
    (ps.foldl Box3.expandByPoint b).min.z ≤ b.min.z ∧
    ∀ q ∈ ps, (ps.foldl Box3.expandByPoint b).min.z ≤ q.z := by
  induction ps generalizing b with
  | nil => exact ⟨le_refl _, fun q hq => absurd hq (List.not_mem_nil q)⟩
  | cons q qs ih =>
    simp only [List.foldl_cons]
    have h := ih (b.expandByPoint q)
    have h1 : (b.expandByPoint q).min.z ≤ b.min.z := min_le_left _ _
    have h2 : (b.expandByPoint q).min.z ≤ q.z := min_le_right _ _
    refine ⟨h.1.trans h1, ?_⟩
    intro v hv
    rcases List.mem_cons.mp hv with hv | hv
    · rw [hv]
      exact h.1.trans h2
    · exact h.2 v hv

/-- The box of a point sequence is not empty. -/
theorem setFromPoints_isEmpty (p : Vector3) (ps : List Vector3) :
    (Box3.setFromPoints p ps).isEmpty = false := by
  have h := foldl_expandByPoint_ordered ps (Box3.ofPoint p)
    ⟨le_refl _, le_refl _, le_refl _⟩
  simp only [Box3.setFromPoints, Box3.isEmpty, Bool.or_eq_false_iff, decide_eq_false_iff_not,
    not_lt]
  exact ⟨⟨h.1, h.2.1⟩, h.2.2⟩

/-- No point of a sequence lies below the lowest Z of its box. -/
theorem setFromPoints_min_z (p : Vector3) (ps : List Vector3) (q : Vector3)
    (hq : q ∈ p :: ps) : (Box3.setFromPoints p ps).min.z ≤ q.z := by
  have h := foldl_expandByPoint_min_z ps (Box3.ofPoint p)
  rcases List.mem_cons.mp hq with hq | hq
  · rw [hq]
    exact h.1
  · exact h.2 q hq

theorem applyMatrix4_identity (v : Vector3) : applyMatrix4 Matrix4.identity v = v := by
  obtain ⟨x, y, z⟩ := v
  simp [applyMatrix4, Matrix4.identity]

/-- The world box of a non-empty box under the identity transform is the box itself. -/
theorem Box3_applyMatrix4_identity (b : Box3) (h : b.isEmpty = false) :
    b.applyMatrix4 Matrix4.identity = b := by
  obtain ⟨⟨x0, y0, z0⟩, ⟨x1, y1, z1⟩⟩ := b
  simp only [Box3.isEmpty, Bool.or_eq_false_iff, decide_eq_false_iff_not, not_lt] at h
  obtain ⟨⟨hx, hy⟩, hz⟩ := h
  simp [Box3.applyMatrix4, Box3.isEmpty, not_lt.mpr hx, not_lt.mpr hy, not_lt.mpr hz,
    applyMatrix4_identity, Box3.setFromPoints, Box3.ofPoint, Box3.expandByPoint, hx, hy, hz]

/-! ## C13: no leakage across loads -/

/-- The variables a successful load sets, whatever the state before it. -/
theorem loadParsed_fields (M : JSMath) (g : ParsedGeometry) (st : State) :
    (loadParsed M g st).mesh =
      some { arr := (centeredVertices g).map some, boundingBox := centeredBox g,
             matrixWorld := loadedMatrix g, markerAttached := true } ∧
    (loadParsed M g st).basePositions = some (centeredVertices g) ∧
    (loadParsed M g st).bloatCenter = some (centeredBox g).getCenter ∧
    (loadParsed M g st).baseRadius =
      boundingSphereRadius M (centeredBox g).getCenter (centeredVertices g) ∧
    (loadParsed M g st).inflateAmount = 0 ∧
    (loadParsed M g st).basePlaneZWorld =
      ((centeredBox g).applyMatrix4 Matrix4.identity).min.z
        - ((centeredBox g).applyMatrix4 Matrix4.identity).getCenter.z :=
  ⟨rfl, rfl, rfl, rfl, rfl, rfl⟩

/-- After a load the clamp step moves nothing: no vertex is below the ground plane. -/
theorem clampStep_after_load (g : ParsedGeometry) :
    clampStep (loadedMatrix g)
        (((centeredBox g).applyMatrix4 Matrix4.identity).min.z
          - ((centeredBox g).applyMatrix4 Matrix4.identity).getCenter.z)
        ((centeredVertices g).map some) =
      (centeredVertices g).map some := by
  have hbox : (centeredBox g).applyMatrix4 Matrix4.identity = centeredBox g :=
    Box3_applyMatrix4_identity _ (setFromPoints_isEmpty _ _)
  rw [hbox]
  simp only [clampStep, List.map_map]
  apply List.map_congr_left
  intro v hv
  have hz : (centeredBox g).min.z ≤ v.z := by
    apply setFromPoints_min_z _ _ v
    simpa [centeredVertices] using hv
  have hw : (applyMatrix4 (loadedMatrix g) v).z = v.z - (centeredBox g).getCenter.z := by
    simp only [applyMatrix4, loadedMatrix, hbox]
    simp only [Matrix4.identity]
    ring
  simp only [Function.comp, clampVertex, hw]
  rw [if_neg (by linarith)]

/-- C13: whatever the session state before it, after a successful load of a mesh and the
next animate tick the strength is `0`, the center and the radius are those of the bounding
sphere of the loaded mesh, `basePositions` holds its centered vertices, and the working
buffer equals those base positions. -/
theorem C13_no_leakage_across_loads (M : JSMath) (st : State) (g : ParsedGeometry) :
    (animate M (loadHandler M (some g) st)).inflateAmount = 0 ∧
    (animate M (loadHandler M (some g) st)).bloatCenter = some (centeredBox g).getCenter ∧
    (animate M (loadHandler M (some g) st)).baseRadius =
      boundingSphereRadius M (centeredBox g).getCenter (centeredVertices g) ∧
    (animate M (loadHandler M (some g) st)).basePositions = some (centeredVertices g) ∧
    (animate M (loadHandler M (some g) st)).mesh.map (fun m => m.arr) =
      some ((centeredVertices g).map some) := by
  obtain ⟨hmesh, hbase, hc, hrad, hamount, hplane⟩ := loadParsed_fields M g st
  simp only [loadHandler]
  unfold animate
  split_ifs with hcond
  · rw [applyBloatCPU_identity M _ _ _ _ _ hmesh hbase hc (by simp)
      (by rw [hamount]; norm_num [strengthEps])]
    refine ⟨hamount, hc, hrad, hbase, ?_⟩
    simp only [Option.map_some']
    split_ifs
    · rw [hplane, clampStep_after_load]
    · rfl
  · exact ⟨hamount, hc, hrad, hbase, by rw [hmesh]; rfl⟩

end Inflate3D
